import Mathlib

/-!
Verification development for the `proxy` reverse proxy

Shallow embedding of the Go sources

* `proxy/serverPool.go`   (round-robin backend selection),
* `proxy/proxyHandler.go` (request dispatch, WebSocket bridge, message relay),
* `middleware/auth.go`, `middleware/logging.go`,
* `main.go`               (configuration loading and listener wiring),

followed by the theorems about them.

Conventions.  Go strings are Lean `String`s, byte slices are lists of naturals
below 256, slices are `List`s, `uint64` values are naturals reduced modulo
`2 ^ 64`, and a Go panic is an absent result.  Calls that leave the process
(dialling a backend, upgrading a connection, reading and writing WebSocket
messages, the reverse proxy round trip) take their outcome from an explicit
environment and are recorded, in program order, in a list of events; deferred
calls appear where they run, at function return, last deferred first.  Output
of `log.Printf` is not part of the model.
-/

set_option autoImplicit false

namespace Proxy

/-! ## `proxy/serverPool.go` -/

/-- The fields of `url.URL` that the proxy reads. -/
structure URL where
  Scheme : String
  Host : String
  Path : String
  deriving DecidableEq, Repr

/-- Go `ServerPool`: the two registries and one `uint64` counter per class. -/
structure ServerPool where
  httpServers : List URL
  httpsServers : List URL
  currentHttp : Nat
  currentHttps : Nat
  deriving DecidableEq, Repr

/-- Number of values of a Go `uint64`. -/
def uint64Size : Nat := 2 ^ 64

/-- Go `atomic.AddUint64(&v, delta)`: the new value, wrapping at `2 ^ 64`. -/
def atomicAddUint64 (v delta : Nat) : Nat := (v + delta) % uint64Size

/-- Go `NewServerPool`: both counters start at zero. -/
def NewServerPool (httpUrls httpsUrls : List URL) : ServerPool :=
  { httpServers := httpUrls, httpsServers := httpsUrls, currentHttp := 0, currentHttps := 0 }

/-- Go `(*ServerPool).NextHttpServer`.  The counter is incremented first; the
selection is `none` when the remainder by a zero length panics. -/
def ServerPool.NextHttpServer (p : ServerPool) : Option URL × ServerPool :=
  let c := atomicAddUint64 p.currentHttp 1
  let p1 := { p with currentHttp := c }
  if p.httpServers.length = 0 then (none, p1)
  else (p.httpServers[c % p.httpServers.length]?, p1)

/-- Go `(*ServerPool).NextHttpsServer`. -/
def ServerPool.NextHttpsServer (p : ServerPool) : Option URL × ServerPool :=
  let c := atomicAddUint64 p.currentHttps 1
  let p1 := { p with currentHttps := c }
  if p.httpsServers.length = 0 then (none, p1)
  else (p.httpsServers[c % p.httpsServers.length]?, p1)

/-- The results of `n` consecutive, non-concurrent `NextHttpServer` calls and
the pool they leave behind. -/
def callsHttp : Nat → ServerPool → List (Option URL) × ServerPool
  | 0, p => ([], p)
  | n + 1, p =>
    let r := p.NextHttpServer
    let rest := callsHttp n r.2
    (r.1 :: rest.1, rest.2)

/-- The results of `n` consecutive, non-concurrent `NextHttpsServer` calls and
the pool they leave behind. -/
def callsHttps : Nat → ServerPool → List (Option URL) × ServerPool
  | 0, p => ([], p)
  | n + 1, p =>
    let r := p.NextHttpsServer
    let rest := callsHttps n r.2
    (r.1 :: rest.1, rest.2)

/-- The selections that `n` calls make from registry `reg` when the counter
holds `c` before the first of them. -/
def picks (reg : List URL) (c n : Nat) : List (Option URL) :=
  (List.range n).map fun j => reg[((c + (j + 1)) % uint64Size) % reg.length]?

/-! ## Go library values used by the handlers -/

/-- Go `error` values as the proxy observes them: the text of `err.Error()`
and, when the dynamic type is `*websocket.CloseError`, its `Code` and `Text`. -/
structure GoError where
  Error : String
  closeError : Option (Nat × String)
  deriving DecidableEq, Repr

/-- The UTF-8 bytes of a Go string (`[]byte(s)`). -/
def bytesOf (s : String) : List Nat :=
  s.data.flatMap fun c => (String.utf8EncodeChar c).map UInt8.toNat

/-- Go `textproto.validHeaderFieldByte`: the token characters of RFC 7230. -/
def validHeaderFieldByte (c : Char) : Bool :=
  c.isAlphanum ||
    [33, 35, 36, 37, 38, 39, 42, 43, 45, 46, 94, 95, 96, 124, 126].contains c.toNat

/-- The letter-case pass of Go `textproto.canonicalMIMEHeaderKey`: upper case
at the start and after each dash, lower case elsewhere. -/
def canonicalLetters : Bool → List Char → List Char
  | _, [] => []
  | upper, c :: cs =>
    let c1 := if upper && c.isLower then c.toUpper
              else if !upper && c.isUpper then c.toLower else c
    c1 :: canonicalLetters (c1 == '-') cs

/-- Go `http.CanonicalHeaderKey`: a key with a byte outside the token
characters is returned unchanged. -/
def CanonicalHeaderKey (s : String) : String :=
  if s.data.all validHeaderFieldByte then String.mk (canonicalLetters true s.data) else s

/-- Go `http.Header`, a `map[string][]string`, as an association list read at
the first entry of a key. -/
abbrev Header := List (String × List String)

/-- Go `v, ok := h[key]`. -/
def Header.lookup (h : Header) (key : String) : Option (List String) :=
  match h with
  | [] => none
  | (k, vs) :: rest => if k = key then some vs else Header.lookup rest key

/-- Go `h[key]` where only the values are used (`nil` for a missing key). -/
def Header.values (h : Header) (key : String) : List String :=
  (h.lookup key).getD []

/-- Go `h[key] = vs`. -/
def Header.put (h : Header) (key : String) (vs : List String) : Header :=
  match h with
  | [] => [(key, vs)]
  | (k, old) :: rest => if k = key then (k, vs) :: rest else (k, old) :: Header.put rest key vs

/-- Go `Header.Get`: the first value of the canonical key, or `""`. -/
def Header.Get (h : Header) (key : String) : String :=
  match h.lookup (CanonicalHeaderKey key) with
  | some (v :: _) => v
  | _ => ""

/-- Go `Header.Add`: append a value under the canonical key. -/
def Header.Add (h : Header) (key value : String) : Header :=
  h.put (CanonicalHeaderKey key) (h.values (CanonicalHeaderKey key) ++ [value])

/-- Go `Header.Set`: replace the values of the canonical key by one value. -/
def Header.Set (h : Header) (key value : String) : Header :=
  h.put (CanonicalHeaderKey key) [value]

/-- Go `Header.Del`. -/
def Header.Del (h : Header) (key : String) : Header :=
  h.filter fun e => e.1 ≠ CanonicalHeaderKey key

/-- The parts of `*http.Request` that the proxy reads. -/
structure Request where
  Header : Header
  Host : String
  RemoteAddr : String
  TLS : Bool
  Path : String
  deriving DecidableEq, Repr

/-- The parts of `*http.Response` that the proxy reads. -/
structure Response where
  StatusCode : Nat
  Header : Header
  Body : List Nat
  deriving DecidableEq, Repr

/-- Go `http.ResponseWriter` as a recorder of what goes to the client: the
live header map, the status code and header snapshot fixed by the first
`WriteHeader`, the body bytes written, and the error (if any) with which the
client connection refuses body writes.  Validation of status codes by the
server is outside the model. -/
structure ResponseWriter where
  Header : Header
  sent : Option (Nat × Proxy.Header)
  body : List Nat
  broken : Option GoError
  deriving DecidableEq, Repr

/-- Go `ResponseWriter.WriteHeader`: only the first call takes effect. -/
def ResponseWriter.WriteHeader (w : ResponseWriter) (statusCode : Nat) : ResponseWriter :=
  match w.sent with
  | none => { w with sent := some (statusCode, w.Header) }
  | some _ => w

/-- Go `ResponseWriter.Write`: sends status 200 first when no status was sent. -/
def ResponseWriter.Write (w : ResponseWriter) (b : List Nat) : ResponseWriter × Option GoError :=
  let w1 := w.WriteHeader 200
  match w1.broken with
  | some e => (w1, some e)
  | none => ({ w1 with body := w1.body ++ b }, none)

/-- Go `io.Copy(rw, body)` from an in-memory body: nothing is written for an
empty body. -/
def ioCopy (w : ResponseWriter) (body : List Nat) : ResponseWriter × Option GoError :=
  if body = [] then (w, none) else w.Write body

/-- Go `http.StatusForbidden`. -/
def http.StatusForbidden : Nat := 403

/-- Go `http.StatusServiceUnavailable`. -/
def http.StatusServiceUnavailable : Nat := 503

/-- Go `http.StatusNotFound`. -/
def http.StatusNotFound : Nat := 404

/-- Go `http.StatusText`, on the codes the proxy uses. -/
def http.StatusText (code : Nat) : String :=
  if code = 403 then "Forbidden"
  else if code = 404 then "Not Found"
  else if code = 503 then "Service Unavailable"
  else ""

/-- Go `http.Error`: plain-text headers, the status code, then the message
followed by a newline. -/
def http.Error (w : ResponseWriter) (error : String) (code : Nat) : ResponseWriter :=
  let h := w.Header.Del "Content-Length"
  let h := h.Set "Content-Type" "text/plain; charset=utf-8"
  let h := h.Set "X-Content-Type-Options" "nosniff"
  let w1 := ({ w with Header := h } : ResponseWriter).WriteHeader code
  (w1.Write (bytesOf (error ++ "\n"))).1

/-! ## `github.com/gorilla/websocket` values -/

/-- Go `websocket.TextMessage`. -/
def websocket.TextMessage : Nat := 1

/-- Go `websocket.BinaryMessage`. -/
def websocket.BinaryMessage : Nat := 2

/-- Go `websocket.CloseMessage`. -/
def websocket.CloseMessage : Nat := 8

/-- Go `websocket.CloseNormalClosure`. -/
def websocket.CloseNormalClosure : Nat := 1000

/-- Go `websocket.CloseNoStatusReceived`. -/
def websocket.CloseNoStatusReceived : Nat := 1005

/-- Go `websocket.FormatCloseMessage`: the two bytes of the code, big endian,
then the text; empty for `CloseNoStatusReceived`. -/
def websocket.FormatCloseMessage (closeCode : Nat) (text : String) : List Nat :=
  if closeCode = websocket.CloseNoStatusReceived then []
  else [closeCode % 65536 / 256, closeCode % 256] ++ bytesOf text

/-- The message types `ReadMessage` returns: text or binary. -/
inductive DataType where
  | text
  | binary
  deriving DecidableEq, Repr

/-- The Go constant of a data message type. -/
def DataType.code : DataType → Nat
  | .text => websocket.TextMessage
  | .binary => websocket.BinaryMessage

/-- One result of `src.ReadMessage()`. -/
inductive ReadResult where
  | message (messageType : DataType) (p : List Nat)
  | failure (err : GoError)
  deriving DecidableEq, Repr

/-! ## `proxy/proxyHandler.go` -/

/-- What a relay task does, in program order. -/
inductive RelayEvent where
  | ReadMessage (r : ReadResult)
  | WriteMessage (messageType : Nat) (data : List Nat) (err : Option GoError)
  | send (err : GoError)
  deriving DecidableEq, Repr

/-- The close payload `m` that `copyMessages` builds from a read error. -/
def closePayload (err : GoError) : List Nat :=
  let m := websocket.FormatCloseMessage websocket.CloseNormalClosure err.Error
  match err.closeError with
  | some (code, text) =>
    if code ≠ websocket.CloseNoStatusReceived then websocket.FormatCloseMessage code text else m
  | none => m

/-- Go `copyMessages(dst, src, errChan)`.  The source is the list of results
of its successive `ReadMessage` calls (when the list is exhausted the next
read never returns); `dst i` is the error of the `i`-th `WriteMessage` call on
the destination, `none` for success; the third argument counts the writes made
so far.  The result is the events of the task and whether it returned. -/
def copyMessages (dst : Nat → Option GoError) :
    List ReadResult → Nat → List RelayEvent × Bool
  | [], _ => ([], false)
  | ReadResult.failure err :: _, i =>
    ([RelayEvent.ReadMessage (ReadResult.failure err),
      RelayEvent.WriteMessage websocket.CloseMessage (closePayload err) (dst i),
      RelayEvent.send err], true)
  | ReadResult.message msgType msg :: rest, i =>
    match dst i with
    | some err =>
      ([RelayEvent.ReadMessage (ReadResult.message msgType msg),
        RelayEvent.WriteMessage msgType.code msg (some err),
        RelayEvent.send err], true)
    | none =>
      let r := copyMessages dst rest (i + 1)
      (RelayEvent.ReadMessage (ReadResult.message msgType msg)
        :: RelayEvent.WriteMessage msgType.code msg none :: r.1, r.2)

/-- The data message (type and payload) that an event hands to
`dst.WriteMessage`, whatever the result of the write. -/
def RelayEvent.attempted : RelayEvent → Option (Nat × List Nat)
  | RelayEvent.WriteMessage t d _ => if t = websocket.CloseMessage then none else some (t, d)
  | _ => none

/-- The data message (type and payload) that an event writes to the
destination with success. -/
def RelayEvent.written : RelayEvent → Option (Nat × List Nat)
  | RelayEvent.WriteMessage t d none => if t = websocket.CloseMessage then none else some (t, d)
  | _ => none

/-- The message (type and payload) that an event reads from the source. -/
def RelayEvent.received : RelayEvent → Option (Nat × List Nat)
  | RelayEvent.ReadMessage (ReadResult.message t p) => some (t.code, p)
  | _ => none

/-- The close frame payload that an event hands to `dst.WriteMessage`. -/
def RelayEvent.closeFrame : RelayEvent → Option (List Nat)
  | RelayEvent.WriteMessage t d _ => if t = websocket.CloseMessage then some d else none
  | _ => none

/-- The messages the source delivers before its first read failure. -/
def messagesBeforeFailure : List ReadResult → List (Nat × List Nat)
  | ReadResult.message t p :: rest => (t.code, p) :: messagesBeforeFailure rest
  | _ => []

/-- A header map as the HTTP parser builds it: every key in canonical form,
no key twice. -/
def Header.wellFormed (h : Header) : Prop :=
  (∀ e ∈ h, CanonicalHeaderKey e.1 = e.1) ∧ (h.map Prod.fst).Nodup

/-- Go `copyResponse`: every header value is added to the writer, then the
status code is sent, then the body is copied. -/
def copyResponse (rw : ResponseWriter) (resp : Response) : ResponseWriter × Option GoError :=
  let rwHeader := resp.Header.foldl
    (fun h kv => kv.2.foldl (fun h1 v => Header.Add h1 kv.1 v) h) rw.Header
  let rw1 := ({ rw with Header := rwHeader } : ResponseWriter).WriteHeader resp.StatusCode
  ioCopy rw1 resp.Body

/-- The two ends of a bridged session. -/
inductive Peer where
  | client
  | backend
  deriving DecidableEq, Repr

/-- The result of `dialer.Dial`: a connection with the handshake response, or
an error with the response the backend gave, if any. -/
inductive DialResult where
  | connected (resp : Response)
  | failed (resp : Option Response) (err : GoError)
  deriving DecidableEq, Repr

/-- What a request handler does outside its own memory, in program order. -/
inductive Event where
  | DialCall (urlStr : String) (requestHeader : Header)
  | DialReturn (ok : Bool)
  | wgAdd (delta : Int)
  | wgDone
  | Upgrade (upgradeHeader : Header) (ok : Bool)
  | closeBackend
  | closeClient
  | goCopyMessages (dst src : Peer)
  | receive (dst : Peer) (err : GoError)
  | ReverseProxy (server : URL) (skipCertCheck : Bool)
  | panicked
  deriving DecidableEq, Repr

/-- The outcomes of the calls that leave the process while one request is
served. -/
structure Env where
  SplitHostPort : String → Option (String × String)
  Dial : String → Header → DialResult
  Upgrade : ResponseWriter → Request → Header → ResponseWriter × Option GoError
  relayEnd : Option (Peer × GoError)
  ReverseProxy : URL → Bool → ResponseWriter → Request → ResponseWriter

/-- The header set `requestHeader` that `proxyWebSocket` passes to the dial. -/
def requestHeader (env : Env) (req : Request) : Header :=
  let h : Header := []
  let h := if req.Header.Get "Origin" ≠ "" then h.Add "Origin" (req.Header.Get "Origin") else h
  let h := (req.Header.values (CanonicalHeaderKey "Sec-WebSocket-Protocol")).foldl
    (fun h1 prot => Header.Add h1 "Sec-WebSocket-Protocol" prot) h
  let h := (req.Header.values (CanonicalHeaderKey "Cookie")).foldl
    (fun h1 cookie => Header.Add h1 "Cookie" cookie) h
  let h := if req.Host ≠ "" then h.Set "Host" req.Host else h
  let h := match env.SplitHostPort req.RemoteAddr with
    | some (clientIP, _) =>
      let clientIP1 := match req.Header.lookup "X-Forwarded-For" with
        | some prior => String.intercalate ", " prior ++ ", " ++ clientIP
        | none => clientIP
      h.Set "X-Forwarded-For" clientIP1
    | none => h
  let h := h.Set "X-Forwarded-Proto" "http"
  if req.TLS then h.Set "X-Forwarded-Proto" "https" else h

/-- The header set `upgradeHeader` that `proxyWebSocket` passes to the
inbound upgrade. -/
def upgradeHeader (resp : Response) : Header :=
  let h : Header := []
  let h := if resp.Header.Get "Sec-Websocket-Protocol" ≠ ""
    then h.Set "Sec-Websocket-Protocol" (resp.Header.Get "Sec-Websocket-Protocol") else h
  if resp.Header.Get "Set-Cookie" ≠ ""
    then h.Set "Set-Cookie" (resp.Header.Get "Set-Cookie") else h

/-- One invocation of `proxyWebSocket`: the response writer it leaves, its
events, and whether it returned (it does not when neither relay task ever
signals). -/
structure Run where
  rw : ResponseWriter
  events : List Event
  returned : Bool
  deriving DecidableEq, Repr

/-- Go `proxyWebSocket(server, rw, req)`. -/
def proxyWebSocket (env : Env) (server : URL) (rw : ResponseWriter) (req : Request) : Run :=
  let hdr := requestHeader env req
  let urlStr := "ws://" ++ server.Host ++ req.Path
  match env.Dial urlStr hdr with
  | DialResult.failed resp _ =>
    let rw1 := match resp with
      | some r => (copyResponse rw r).1
      | none => http.Error rw (http.StatusText http.StatusServiceUnavailable)
          http.StatusServiceUnavailable
    { rw := rw1
      events := [Event.DialCall urlStr hdr, Event.DialReturn false, Event.wgAdd 1, Event.wgDone]
      returned := true }
  | DialResult.connected resp =>
    let up := env.Upgrade rw req (upgradeHeader resp)
    match up.2 with
    | some _ =>
      { rw := up.1
        events := [Event.DialCall urlStr hdr, Event.DialReturn true, Event.wgAdd 1,
          Event.Upgrade (upgradeHeader resp) false, Event.wgAdd 1,
          Event.wgDone, Event.closeBackend, Event.wgDone]
        returned := true }
    | none =>
      match env.relayEnd with
      | none =>
        { rw := up.1
          events := [Event.DialCall urlStr hdr, Event.DialReturn true, Event.wgAdd 1,
            Event.Upgrade (upgradeHeader resp) true, Event.wgAdd 1,
            Event.goCopyMessages Peer.client Peer.backend,
            Event.goCopyMessages Peer.backend Peer.client]
          returned := false }
      | some (dst, err) =>
        { rw := up.1
          events := [Event.DialCall urlStr hdr, Event.DialReturn true, Event.wgAdd 1,
            Event.Upgrade (upgradeHeader resp) true, Event.wgAdd 1,
            Event.goCopyMessages Peer.client Peer.backend,
            Event.goCopyMessages Peer.backend Peer.client,
            Event.receive dst err,
            Event.closeClient, Event.wgDone, Event.closeBackend, Event.wgDone]
          returned := true }

/-- The value of the `connWaitGroup` counter after one event. -/
def wgStep (counter : Int) : Event → Int
  | Event.wgAdd delta => counter + delta
  | Event.wgDone => counter - 1
  | _ => counter

/-- The value of the `connWaitGroup` counter after a list of events. -/
def wgCounter (counter : Int) (events : List Event) : Int :=
  events.foldl wgStep counter

/-- The change one event makes to the `connWaitGroup` counter. -/
def wgDelta : Event → Int
  | Event.wgAdd delta => delta
  | Event.wgDone => -1
  | _ => 0

/-- Number of `connWaitGroup.Add(1)` calls among the events. -/
def countAdd (events : List Event) : Nat :=
  events.count (Event.wgAdd 1)

/-- Number of `connWaitGroup.Done()` calls among the events. -/
def countDone (events : List Event) : Nat :=
  events.count Event.wgDone

/-- The arguments of one invocation of `proxyWebSocket`, with the outcomes
of its calls. -/
structure Session where
  env : Env
  server : URL
  rw : ResponseWriter
  req : Request

/-- The invocation of `proxyWebSocket` for a session. -/
def Session.run (s : Session) : Run :=
  proxyWebSocket s.env s.server s.rw s.req

/-- The process state the handlers share: the server pool and the events so far. -/
structure World where
  pool : ServerPool
  events : List Event
  deriving DecidableEq, Repr

/-- Go `http.Handler`: `ServeHTTP(w, r)` as a function of the shared state. -/
abbrev Handler := ResponseWriter → Request → World → ResponseWriter × World

/-- Go `ProxyHandler(pool, ws, https, skipCertCheck)`. -/
def ProxyHandler (env : Env) (ws https skipCertCheck : Bool) : Handler := fun w r s =>
  let sel := if https then s.pool.NextHttpsServer else s.pool.NextHttpServer
  match sel.1 with
  | none => (w, { pool := sel.2, events := s.events ++ [Event.panicked] })
  | some server =>
    if ws then
      let run := proxyWebSocket env server w r
      (run.rw, { pool := sel.2, events := s.events ++ run.events })
    else
      (env.ReverseProxy server skipCertCheck w r,
        { pool := sel.2, events := s.events ++ [Event.ReverseProxy server skipCertCheck] })

/-! ## `middleware` -/

/-- Go `middleware.Authorize(next, validTokens)`; the token map is the list
of its keys. -/
def Authorize (next : Handler) (validTokens : List String) : Handler := fun w r s =>
  let token := r.Header.Get "X-Auth-Token"
  if token ∈ validTokens then next w r s
  else (http.Error w "Forbidden" http.StatusForbidden, s)

/-- Go `middleware.LogRequest(next)`. -/
def LogRequest (next : Handler) : Handler := fun w r s => next w r s

/-! ## `main.go` -/

/-- Go `strings.SplitN(s, "=", 2)` on the characters of `s`. -/
def splitAtEq : List Char → List (List Char)
  | [] => [[]]
  | c :: cs =>
    if c = '=' then [[], cs]
    else match splitAtEq cs with
      | [key, value] => [c :: key, value]
      | _ => [c :: cs]

/-- What `parseEnvVars` returns. -/
structure Parsed where
  httpUrls : List URL
  httpsUrls : List URL
  validTokens : List String
  deriving DecidableEq, Repr

/-- One iteration of the loop of `parseEnvVars` over `os.Environ()`. -/
def parseEnvVar (urlParse : String → Option URL) (acc : Parsed) (envVar : String) : Parsed :=
  match splitAtEq envVar.data with
  | [key, value] =>
    if "HTTP_SERVER_URL_".data.isPrefixOf key then
      match urlParse (String.mk value) with
      | none => acc
      | some url => { acc with httpUrls := acc.httpUrls ++ [url] }
    else if "HTTPS_SERVER_URL_".data.isPrefixOf key then
      match urlParse (String.mk value) with
      | none => acc
      | some url => { acc with httpsUrls := acc.httpsUrls ++ [url] }
    else if "AUTH_TOKEN_".data.isPrefixOf key then
      if String.mk value ∈ acc.validTokens then acc
      else { acc with validTokens := acc.validTokens ++ [String.mk value] }
    else acc
  | _ => acc

/-- Whether an environment entry is an `AUTH_TOKEN_` variable with an empty value. -/
def emptyToken (envVar : String) : Bool :=
  match splitAtEq envVar.data with
  | [key, value] => "AUTH_TOKEN_".data.isPrefixOf key && value.isEmpty
  | _ => false

/-- Go `parseEnvVars`, on the environment `os.Environ()` returns once the
`.env` file is loaded (the process exits when loading fails); `urlParse` is
`url.Parse`, with `none` for an error. -/
def parseEnvVars (urlParse : String → Option URL) (envVars : List String) : Parsed :=
  envVars.foldl (parseEnvVar urlParse) { httpUrls := [], httpsUrls := [], validTokens := [] }

/-- The handler `httpHandler` of `main`. -/
def httpHandler (env : Env) (validTokens : List String) (skipCertCheck : Bool) : Handler :=
  LogRequest (Authorize (ProxyHandler env false false skipCertCheck) validTokens)

/-- The handler `httpsHandler` of `main`. -/
def httpsHandler (env : Env) (validTokens : List String) (skipCertCheck : Bool) : Handler :=
  LogRequest (Authorize (ProxyHandler env false true skipCertCheck) validTokens)

/-- The handler `wsHandler` of `main`. -/
def wsHandler (env : Env) (validTokens : List String) (skipCertCheck : Bool) : Handler :=
  LogRequest (Authorize (ProxyHandler env true false skipCertCheck) validTokens)

/-- Go `http.ServeMux`: the registered patterns with their handlers. -/
abbrev ServeMux := List (String × Handler)

/-- Go `http.NewServeMux()`. -/
def http.NewServeMux : ServeMux := []

/-- Go `ServeMux.HandleFunc`. -/
def ServeMux.HandleFunc (mux : ServeMux) (pattern : String) (handler : Handler) : ServeMux :=
  mux ++ [(pattern, handler)]

/-- The registered pattern that is exactly the path, if any. -/
def ServeMux.exact (mux : ServeMux) (path : String) : Option (String × Handler) :=
  mux.find? fun e => e.1 = path

/-- The longest registered pattern that ends in a slash and starts the path, if any. -/
def ServeMux.longest (mux : ServeMux) (path : String) : Option (String × Handler) :=
  mux.foldl (fun best e =>
    if e.1.data.getLast? = some '/' ∧ e.1.data.isPrefixOf path.data then
      match best with
      | none => some e
      | some b => if b.1.length < e.1.length then some e else some b
    else best) none

/-- Go `ServeMux.ServeHTTP` for a request path in canonical form: an exact
pattern wins, then the longest pattern ending in a slash; no match is answered
with `404`. -/
def ServeMux.ServeHTTP (mux : ServeMux) : Handler := fun w r s =>
  match (mux.exact r.Path).orElse (fun _ => mux.longest r.Path) with
  | some e => e.2 w r s
  | none => (http.Error w "404 page not found" http.StatusNotFound, s)

/-- The mux `httpMux` of `main`. -/
def httpMux (env : Env) (validTokens : List String) (skipCertCheck : Bool) : ServeMux :=
  ServeMux.HandleFunc
    (ServeMux.HandleFunc http.NewServeMux "/websocket" (wsHandler env validTokens skipCertCheck))
    "/" (httpHandler env validTokens skipCertCheck)

/-- The mux `httpsMux` of `main`. -/
def httpsMux (env : Env) (validTokens : List String) (skipCertCheck : Bool) : ServeMux :=
  ServeMux.HandleFunc
    (ServeMux.HandleFunc http.NewServeMux "/websocket" (wsHandler env validTokens skipCertCheck))
    "/" (httpsHandler env validTokens skipCertCheck)

/-- The two listeners of `main`. -/
inductive Listener where
  | plaintext8080
  | tls8443
  deriving DecidableEq, Repr

/-- The `Handler` field of the `http.Server` that `main` builds for a
listener: `httpMux` for `:8080`, `httpsHandler` for `:8443`. -/
def serverHandler (env : Env) (validTokens : List String) (skipCertCheck : Bool) :
    Listener → Handler
  | Listener.plaintext8080 => (httpMux env validTokens skipCertCheck).ServeHTTP
  | Listener.tls8443 => httpsHandler env validTokens skipCertCheck

/-! ## Concrete inputs -/

/-- A request from `10.0.0.7:51000` for `/websocket` that carries the token `token1`. -/
def sampleRequest : Request :=
  { Header := [("X-Auth-Token", ["token1"])], Host := "proxy.example",
    RemoteAddr := "10.0.0.7:51000", TLS := false, Path := "/websocket" }

/-- A request for `/` that carries no header at all. -/
def anonymousRequest : Request :=
  { Header := [], Host := "localhost:8080", RemoteAddr := "10.0.0.7:51000", TLS := false,
    Path := "/" }

/-- A request for `/websocket` that already passed two proxies. -/
def forwardedRequest : Request :=
  { Header := [("X-Auth-Token", ["token1"]), ("X-Forwarded-For", ["1.1.1.1", "2.2.2.2"])],
    Host := "proxy.example", RemoteAddr := "10.0.0.7:51000", TLS := true,
    Path := "/websocket" }

/-- A response writer on which nothing was set or sent. -/
def freshWriter : ResponseWriter :=
  { Header := [], sent := none, body := [], broken := none }

/-- A backend address. -/
def sampleServer : URL := { Scheme := "http", Host := "localhost:9001", Path := "" }

/-- A backend address of the TLS class. -/
def sampleTlsServer : URL := { Scheme := "https", Host := "localhost:9443", Path := "" }

/-- The reply of a backend that refuses the WebSocket handshake. -/
def refusal : Response :=
  { StatusCode := 401, Header := [("Www-Authenticate", ["Basic"]), ("X-Reason", ["a", "b"])],
    Body := [110, 111] }

/-- The handshake response of a backend that accepts the sub-protocol `chat`
and sets two cookies. -/
def cookieResponse : Response :=
  { StatusCode := 101,
    Header := [("Sec-Websocket-Protocol", ["chat"]), ("Set-Cookie", ["a=1", "b=2"])],
    Body := [] }

/-- The error with which a relay ends when the client closes normally. -/
def normalClose : GoError :=
  { Error := "websocket: close 1000 (normal)", closeError := some (1000, "") }

/-- The error of a dial whose handshake was refused. -/
def badHandshake : GoError := { Error := "websocket: bad handshake", closeError := none }

/-- An environment in which the dial returns `dial`, the upgrade returns
`upgradeErr`, and the relay ends as `relayEnd` says. -/
def sampleEnv (dial : DialResult) (upgradeErr : Option GoError)
    (relayEnd : Option (Peer × GoError)) : Env :=
  { SplitHostPort := fun _ => some ("10.0.0.7", "51000")
    Dial := fun _ _ => dial
    Upgrade := fun w _ _ => (w, upgradeErr)
    relayEnd := relayEnd
    ReverseProxy := fun _ _ w _ => (w.WriteHeader 200) }

/-! # Theorems -/

/-! ## Round-robin selection -/

theorem atomicAdd_mod (c j : Nat) :
    (atomicAddUint64 c 1 + j) % uint64Size = (c + (j + 1)) % uint64Size := by
  unfold atomicAddUint64
  rw [Nat.add_mod, Nat.mod_mod, ← Nat.add_mod]
  congr 1
  omega

theorem picks_succ (reg : List URL) (c n : Nat) :
    picks reg c (n + 1)
      = reg[atomicAddUint64 c 1 % reg.length]? :: picks reg (atomicAddUint64 c 1) n := by
  unfold picks
  rw [List.range_succ_eq_map, List.map_cons, List.map_map]
  refine congrArg₂ List.cons ?_ ?_
  · simp [atomicAddUint64]
  · apply List.map_congr_left
    intro j _
    simp only [Function.comp]
    rw [atomicAdd_mod]

theorem NextHttpServer_fst (p : ServerPool) :
    p.NextHttpServer.1
      = p.httpServers[atomicAddUint64 p.currentHttp 1 % p.httpServers.length]? := by
  unfold ServerPool.NextHttpServer
  by_cases h : p.httpServers.length = 0
  · have h0 : p.httpServers = [] := List.length_eq_zero.mp h
    simp [h0]
  · simp [h]

theorem NextHttpServer_snd (p : ServerPool) :
    p.NextHttpServer.2 = { p with currentHttp := atomicAddUint64 p.currentHttp 1 } := by
  unfold ServerPool.NextHttpServer
  by_cases h : p.httpServers.length = 0 <;> simp [h]

theorem NextHttpsServer_fst (p : ServerPool) :
    p.NextHttpsServer.1
      = p.httpsServers[atomicAddUint64 p.currentHttps 1 % p.httpsServers.length]? := by
  unfold ServerPool.NextHttpsServer
  by_cases h : p.httpsServers.length = 0
  · have h0 : p.httpsServers = [] := List.length_eq_zero.mp h
    simp [h0]
  · simp [h]

theorem NextHttpsServer_snd (p : ServerPool) :
    p.NextHttpsServer.2 = { p with currentHttps := atomicAddUint64 p.currentHttps 1 } := by
  unfold ServerPool.NextHttpsServer
  by_cases h : p.httpsServers.length = 0 <;> simp [h]

theorem callsHttp_fst (n : Nat) (p : ServerPool) :
    (callsHttp n p).1 = picks p.httpServers p.currentHttp n := by
  induction n generalizing p with
  | zero => simp [callsHttp, picks]
  | succ n ih =>
    simp only [callsHttp]
    rw [ih, picks_succ, NextHttpServer_fst, NextHttpServer_snd]

theorem callsHttps_fst (n : Nat) (p : ServerPool) :
    (callsHttps n p).1 = picks p.httpsServers p.currentHttps n := by
  induction n generalizing p with
  | zero => simp [callsHttps, picks]
  | succ n ih =>
    simp only [callsHttps]
    rw [ih, picks_succ, NextHttpsServer_fst, NextHttpsServer_snd]

/-- The pool after `n` calls on the plaintext class: only that class's counter moved. -/
theorem callsHttp_snd (n : Nat) (p : ServerPool) (hc : p.currentHttp < uint64Size) :
    (callsHttp n p).2 = { p with currentHttp := (p.currentHttp + n) % uint64Size } := by
  induction n generalizing p with
  | zero => simp [callsHttp, Nat.mod_eq_of_lt hc]
  | succ n ih =>
    simp only [callsHttp]
    rw [NextHttpServer_snd, ih]
    · simp only [ServerPool.mk.injEq, true_and, and_true]
      rw [atomicAdd_mod]
    · exact Nat.mod_lt _ (by unfold uint64Size; positivity)

/-- The pool after `n` calls on the TLS class: only that class's counter moved. -/
theorem callsHttps_snd (n : Nat) (p : ServerPool) (hc : p.currentHttps < uint64Size) :
    (callsHttps n p).2 = { p with currentHttps := (p.currentHttps + n) % uint64Size } := by
  induction n generalizing p with
  | zero => simp [callsHttps, Nat.mod_eq_of_lt hc]
  | succ n ih =>
    simp only [callsHttps]
    rw [NextHttpsServer_snd, ih]
    · simp only [ServerPool.mk.injEq, true_and, and_true]
      rw [atomicAdd_mod]
    · exact Nat.mod_lt _ (by unfold uint64Size; positivity)

/-- The last of `k` selections is made with counter value `c + k`. -/
theorem picks_getLast (reg : List URL) (c k : Nat) (hk : 1 ≤ k) :
    (picks reg c k).getLast? = some reg[((c + k) % uint64Size) % reg.length]? := by
  obtain ⟨m, rfl⟩ : ∃ m, k = m + 1 := ⟨k - 1, by omega⟩
  unfold picks
  rw [List.range_succ, List.map_append]
  simp

/-- As long as the counter does not wrap, a full cycle of selections is the
registry rotated to the position after the counter. -/
theorem picks_eq_rotate (reg : List URL) (c : Nat) (hc : c + reg.length < uint64Size) :
    picks reg c reg.length = (reg.rotate (c + 1)).map some := by
  apply List.ext_getElem?
  intro j
  by_cases hj : j < reg.length
  · have hpos : 0 < reg.length := by omega
    have hlt : (c + (j + 1)) % reg.length < reg.length := Nat.mod_lt _ hpos
    have hsmall : (c + (j + 1)) % uint64Size = c + (j + 1) := Nat.mod_eq_of_lt (by omega)
    unfold picks
    rw [List.getElem?_map, List.getElem?_map, List.getElem?_range hj, List.getElem?_rotate hj]
    simp only [Option.map_some']
    rw [hsmall, show j + (c + 1) = c + (j + 1) by omega, List.getElem?_eq_getElem hlt]
    simp
  · have h1 : (picks reg c reg.length).length ≤ j := by simp [picks]; omega
    have h2 : ((reg.rotate (c + 1)).map some).length ≤ j := by simp; omega
    rw [List.getElem?_eq_none h1, List.getElem?_eq_none h2]

/-- A full cycle from a fresh counter is the registry with its first entry
moved to the end. -/
theorem picks_fresh (reg : List URL) (h1 : 1 ≤ reg.length) (h2 : reg.length < 2 ^ 63) :
    picks reg 0 reg.length = (reg.drop 1 ++ reg.take 1).map some := by
  have hlt : 0 + reg.length < uint64Size := by unfold uint64Size; omega
  rw [picks_eq_rotate reg 0 hlt, Nat.zero_add, List.rotate_eq_drop_append_take h1]

/-- The `k`-th selection from a fresh counter, `1 ≤ k ≤ N`, is entry `k mod N`. -/
theorem picks_fresh_kth (reg : List URL) (k : Nat) (h2 : reg.length < 2 ^ 63)
    (hk1 : 1 ≤ k) (hk2 : k ≤ reg.length) :
    ∃ u, reg[k % reg.length]? = some u ∧ (picks reg 0 k).getLast? = some (some u) := by
  have hpos : 0 < reg.length := by omega
  have hlt : k % reg.length < reg.length := Nat.mod_lt _ hpos
  have hsmall : (0 + k) % uint64Size = k := by
    rw [Nat.zero_add]
    exact Nat.mod_eq_of_lt (by unfold uint64Size; omega)
  refine ⟨reg[k % reg.length], List.getElem?_eq_getElem hlt, ?_⟩
  rw [picks_getLast reg 0 k hk1, hsmall, List.getElem?_eq_getElem hlt]

/-- C1: on a newly constructed pool whose plaintext registry has `N ≥ 1`
backends (a Go slice, so `N < 2 ^ 63`), the `k`-th call of `NextHttpServer`,
`1 ≤ k ≤ N`, returns `registry[k mod N]`, and the first `N` calls return the
registry with its first entry moved to the end: every backend exactly once,
beginning with index 1 (index 0 when `N = 1`) and ending with index 0.  The
same holds for `NextHttpsServer` over the TLS registry. -/
theorem C1_fresh_pool_rotation (httpUrls httpsUrls : List URL) :
    (1 ≤ httpUrls.length → httpUrls.length < 2 ^ 63 →
      (∀ k, 1 ≤ k → k ≤ httpUrls.length →
        ∃ u, httpUrls[k % httpUrls.length]? = some u ∧
          (callsHttp k (NewServerPool httpUrls httpsUrls)).1.getLast? = some (some u)) ∧
      (callsHttp httpUrls.length (NewServerPool httpUrls httpsUrls)).1
        = (httpUrls.drop 1 ++ httpUrls.take 1).map some ∧
      List.Perm ((callsHttp httpUrls.length (NewServerPool httpUrls httpsUrls)).1)
        (httpUrls.map some)) ∧
    (1 ≤ httpsUrls.length → httpsUrls.length < 2 ^ 63 →
      (∀ k, 1 ≤ k → k ≤ httpsUrls.length →
        ∃ u, httpsUrls[k % httpsUrls.length]? = some u ∧
          (callsHttps k (NewServerPool httpUrls httpsUrls)).1.getLast? = some (some u)) ∧
      (callsHttps httpsUrls.length (NewServerPool httpUrls httpsUrls)).1
        = (httpsUrls.drop 1 ++ httpsUrls.take 1).map some ∧
      List.Perm ((callsHttps httpsUrls.length (NewServerPool httpUrls httpsUrls)).1)
        (httpsUrls.map some)) := by
  refine ⟨fun h1 h2 => ⟨?_, ?_, ?_⟩, fun h1 h2 => ⟨?_, ?_, ?_⟩⟩
  · intro k hk1 hk2
    rw [callsHttp_fst]
    exact picks_fresh_kth httpUrls k h2 hk1 hk2
  · rw [callsHttp_fst]
    exact picks_fresh httpUrls h1 h2
  · rw [callsHttp_fst]
    show List.Perm (picks httpUrls 0 httpUrls.length) _
    rw [picks_fresh httpUrls h1 h2]
    refine List.Perm.map some ?_
    have h := @List.perm_append_comm _ (httpUrls.drop 1) (httpUrls.take 1)
    rwa [List.take_append_drop] at h
  · intro k hk1 hk2
    rw [callsHttps_fst]
    exact picks_fresh_kth httpsUrls k h2 hk1 hk2
  · rw [callsHttps_fst]
    exact picks_fresh httpsUrls h1 h2
  · rw [callsHttps_fst]
    show List.Perm (picks httpsUrls 0 httpsUrls.length) _
    rw [picks_fresh httpsUrls h1 h2]
    refine List.Perm.map some ?_
    have h := @List.perm_append_comm _ (httpsUrls.drop 1) (httpsUrls.take 1)
    rwa [List.take_append_drop] at h

/-- C1 at the three plaintext and two TLS backends of a concrete pool. -/
theorem C1_fresh_pool_rotation_witness :
    (callsHttp 3 (NewServerPool
        [⟨"http", "server1.com", ""⟩, ⟨"http", "server2.com", ""⟩, ⟨"http", "server3.com", ""⟩]
        [⟨"https", "a.example", ""⟩, ⟨"https", "b.example", ""⟩])).1
      = [some ⟨"http", "server2.com", ""⟩, some ⟨"http", "server3.com", ""⟩,
         some ⟨"http", "server1.com", ""⟩] ∧
    (callsHttps 2 (NewServerPool
        [⟨"http", "server1.com", ""⟩, ⟨"http", "server2.com", ""⟩, ⟨"http", "server3.com", ""⟩]
        [⟨"https", "a.example", ""⟩, ⟨"https", "b.example", ""⟩])).1
      = [some ⟨"https", "b.example", ""⟩, some ⟨"https", "a.example", ""⟩] :=
  ⟨((C1_fresh_pool_rotation
        [⟨"http", "server1.com", ""⟩, ⟨"http", "server2.com", ""⟩, ⟨"http", "server3.com", ""⟩]
        [⟨"https", "a.example", ""⟩, ⟨"https", "b.example", ""⟩]).1
      (by decide) (by decide)).2.1,
   ((C1_fresh_pool_rotation
        [⟨"http", "server1.com", ""⟩, ⟨"http", "server2.com", ""⟩, ⟨"http", "server3.com", ""⟩]
        [⟨"https", "a.example", ""⟩, ⟨"https", "b.example", ""⟩]).2
      (by decide) (by decide)).2.1⟩

/-! ## Rotation anywhere in the lifetime of the pool -/

/-- A full cycle that does not wrap the counter visits the registry in
rotation: a permutation of it, without immediate repeats when its entries are
distinct. -/
theorem picks_cycle (reg : List URL) (c : Nat) (hc : c + reg.length < uint64Size) :
    picks reg c reg.length = (reg.rotate (c + 1)).map some ∧
    List.Perm (picks reg c reg.length) (reg.map some) ∧
    (reg.Nodup → List.Chain' (fun a b => a ≠ b) (picks reg c reg.length)) := by
  have h := picks_eq_rotate reg c hc
  refine ⟨h, ?_, ?_⟩
  · rw [h]
    exact List.Perm.map some (List.rotate_perm reg (c + 1))
  · intro hnd
    rw [h]
    have h1 : (reg.rotate (c + 1)).Nodup := List.nodup_rotate.mpr hnd
    have h2 : ((reg.rotate (c + 1)).map some).Nodup :=
      List.Nodup.map (Option.some_injective URL) h1
    exact List.Pairwise.chain' h2

/-- C6, as amended: for every pool state with `N ≥ 1` backends in a class
whose counter does not wrap around `2 ^ 64` during the next `N` calls, `N`
consecutive non-concurrent selections on that class return the registry
rotated to the position after the counter: every backend exactly once, and,
the entries of the registry being distinct, no backend twice in a row. -/
theorem C6_rotation_without_wrap (p : ServerPool) :
    (1 ≤ p.httpServers.length → p.currentHttp + p.httpServers.length < 2 ^ 64 →
      (callsHttp p.httpServers.length p).1
          = (p.httpServers.rotate (p.currentHttp + 1)).map some ∧
        List.Perm (callsHttp p.httpServers.length p).1 (p.httpServers.map some) ∧
        (p.httpServers.Nodup →
          List.Chain' (fun a b => a ≠ b) (callsHttp p.httpServers.length p).1)) ∧
    (1 ≤ p.httpsServers.length → p.currentHttps + p.httpsServers.length < 2 ^ 64 →
      (callsHttps p.httpsServers.length p).1
          = (p.httpsServers.rotate (p.currentHttps + 1)).map some ∧
        List.Perm (callsHttps p.httpsServers.length p).1 (p.httpsServers.map some) ∧
        (p.httpsServers.Nodup →
          List.Chain' (fun a b => a ≠ b) (callsHttps p.httpsServers.length p).1)) := by
  constructor
  · intro _ hc
    rw [callsHttp_fst]
    exact picks_cycle p.httpServers p.currentHttp hc
  · intro _ hc
    rw [callsHttps_fst]
    exact picks_cycle p.httpsServers p.currentHttps hc

/-- C6 as amended, at a pool of three backends whose plaintext counter holds 7. -/
theorem C6_rotation_without_wrap_witness :
    (callsHttp 3 ⟨[⟨"http", "b1", ""⟩, ⟨"http", "b2", ""⟩, ⟨"http", "b3", ""⟩], [], 7, 0⟩).1
      = [some ⟨"http", "b3", ""⟩, some ⟨"http", "b1", ""⟩, some ⟨"http", "b2", ""⟩] :=
  ((C6_rotation_without_wrap
      ⟨[⟨"http", "b1", ""⟩, ⟨"http", "b2", ""⟩, ⟨"http", "b3", ""⟩], [], 7, 0⟩).1
    (by decide) (by decide)).1

/-- C6 as stated fails where the counter wraps: on a fresh pool of three
backends, the three calls that follow the first `2 ^ 64 - 2` calls return the
first backend twice in a row and never the third. -/
theorem C6_counterexample :
    (callsHttp 3 (callsHttp (2 ^ 64 - 2)
        (NewServerPool [⟨"http", "b1", ""⟩, ⟨"http", "b2", ""⟩, ⟨"http", "b3", ""⟩] [])).2).1
      = [some ⟨"http", "b1", ""⟩, some ⟨"http", "b1", ""⟩, some ⟨"http", "b2", ""⟩] := by
  rw [callsHttp_snd _ _ (by decide)]
  decide

/-! ## Drain counter -/

theorem wgStep_eq (c : Int) (e : Event) : wgStep c e = c + wgDelta e := by
  cases e <;> simp only [wgStep, wgDelta] <;> omega

theorem wgCounter_eq (c : Int) (events : List Event) :
    wgCounter c events = c + (events.map wgDelta).sum := by
  induction events generalizing c with
  | nil => simp [wgCounter]
  | cons e es ih =>
    have h : wgCounter c (e :: es) = wgCounter (wgStep c e) es := rfl
    rw [h, ih, wgStep_eq, List.map_cons, List.sum_cons]
    omega

theorem wgCounter_perm (c : Int) (l1 l2 : List Event) (h : List.Perm l1 l2) :
    wgCounter c l1 = wgCounter c l2 := by
  rw [wgCounter_eq, wgCounter_eq, List.Perm.sum_eq (List.Perm.map wgDelta h)]

theorem proxyWebSocket_failed_resp (env : Env) (server : URL) (rw : ResponseWriter)
    (req : Request) (r : Response) (err : GoError)
    (hd : env.Dial ("ws://" ++ server.Host ++ req.Path) (requestHeader env req)
      = DialResult.failed (some r) err) :
    proxyWebSocket env server rw req =
      { rw := (copyResponse rw r).1
        events := [Event.DialCall ("ws://" ++ server.Host ++ req.Path) (requestHeader env req),
          Event.DialReturn false, Event.wgAdd 1, Event.wgDone]
        returned := true } := by
  simp only [proxyWebSocket, hd]

theorem proxyWebSocket_failed_none (env : Env) (server : URL) (rw : ResponseWriter)
    (req : Request) (err : GoError)
    (hd : env.Dial ("ws://" ++ server.Host ++ req.Path) (requestHeader env req)
      = DialResult.failed none err) :
    proxyWebSocket env server rw req =
      { rw := http.Error rw (http.StatusText http.StatusServiceUnavailable)
          http.StatusServiceUnavailable
        events := [Event.DialCall ("ws://" ++ server.Host ++ req.Path) (requestHeader env req),
          Event.DialReturn false, Event.wgAdd 1, Event.wgDone]
        returned := true } := by
  simp only [proxyWebSocket, hd]

theorem proxyWebSocket_upgrade_failed (env : Env) (server : URL) (rw : ResponseWriter)
    (req : Request) (resp : Response) (e : GoError)
    (hd : env.Dial ("ws://" ++ server.Host ++ req.Path) (requestHeader env req)
      = DialResult.connected resp)
    (hu : (env.Upgrade rw req (upgradeHeader resp)).2 = some e) :
    proxyWebSocket env server rw req =
      { rw := (env.Upgrade rw req (upgradeHeader resp)).1
        events := [Event.DialCall ("ws://" ++ server.Host ++ req.Path) (requestHeader env req),
          Event.DialReturn true, Event.wgAdd 1,
          Event.Upgrade (upgradeHeader resp) false, Event.wgAdd 1,
          Event.wgDone, Event.closeBackend, Event.wgDone]
        returned := true } := by
  simp only [proxyWebSocket, hd, hu]

theorem proxyWebSocket_blocked (env : Env) (server : URL) (rw : ResponseWriter)
    (req : Request) (resp : Response)
    (hd : env.Dial ("ws://" ++ server.Host ++ req.Path) (requestHeader env req)
      = DialResult.connected resp)
    (hu : (env.Upgrade rw req (upgradeHeader resp)).2 = none)
    (hr : env.relayEnd = none) :
    proxyWebSocket env server rw req =
      { rw := (env.Upgrade rw req (upgradeHeader resp)).1
        events := [Event.DialCall ("ws://" ++ server.Host ++ req.Path) (requestHeader env req),
          Event.DialReturn true, Event.wgAdd 1,
          Event.Upgrade (upgradeHeader resp) true, Event.wgAdd 1,
          Event.goCopyMessages Peer.client Peer.backend,
          Event.goCopyMessages Peer.backend Peer.client]
        returned := false } := by
  simp only [proxyWebSocket, hd, hu, hr]

theorem proxyWebSocket_relayed (env : Env) (server : URL) (rw : ResponseWriter)
    (req : Request) (resp : Response) (dst : Peer) (err : GoError)
    (hd : env.Dial ("ws://" ++ server.Host ++ req.Path) (requestHeader env req)
      = DialResult.connected resp)
    (hu : (env.Upgrade rw req (upgradeHeader resp)).2 = none)
    (hr : env.relayEnd = some (dst, err)) :
    proxyWebSocket env server rw req =
      { rw := (env.Upgrade rw req (upgradeHeader resp)).1
        events := [Event.DialCall ("ws://" ++ server.Host ++ req.Path) (requestHeader env req),
          Event.DialReturn true, Event.wgAdd 1,
          Event.Upgrade (upgradeHeader resp) true, Event.wgAdd 1,
          Event.goCopyMessages Peer.client Peer.backend,
          Event.goCopyMessages Peer.backend Peer.client,
          Event.receive dst err,
          Event.closeClient, Event.wgDone, Event.closeBackend, Event.wgDone]
        returned := true } := by
  simp only [proxyWebSocket, hd, hu, hr]

/-- The ways an invocation of `proxyWebSocket` can go, with its counter events. -/
theorem proxyWebSocket_paths (env : Env) (server : URL) (rw : ResponseWriter) (req : Request) :
    ((∃ resp err, env.Dial ("ws://" ++ server.Host ++ req.Path) (requestHeader env req)
          = DialResult.failed resp err) ∧
      (proxyWebSocket env server rw req).returned = true ∧
      countAdd (proxyWebSocket env server rw req).events = 1 ∧
      countDone (proxyWebSocket env server rw req).events = 1 ∧
      ((proxyWebSocket env server rw req).events.map wgDelta).sum = 0) ∨
    ((∃ resp, env.Dial ("ws://" ++ server.Host ++ req.Path) (requestHeader env req)
          = DialResult.connected resp ∧
        ((env.Upgrade rw req (upgradeHeader resp)).2 ≠ none ∨ env.relayEnd ≠ none)) ∧
      (proxyWebSocket env server rw req).returned = true ∧
      countAdd (proxyWebSocket env server rw req).events = 2 ∧
      countDone (proxyWebSocket env server rw req).events = 2 ∧
      ((proxyWebSocket env server rw req).events.map wgDelta).sum = 0) ∨
    ((∃ resp, env.Dial ("ws://" ++ server.Host ++ req.Path) (requestHeader env req)
          = DialResult.connected resp ∧
        (env.Upgrade rw req (upgradeHeader resp)).2 = none ∧ env.relayEnd = none) ∧
      (proxyWebSocket env server rw req).returned = false) := by
  cases hd : env.Dial ("ws://" ++ server.Host ++ req.Path) (requestHeader env req) with
  | failed resp err =>
    left
    cases resp with
    | none =>
      rw [proxyWebSocket_failed_none env server rw req err hd]
      exact ⟨⟨none, err, rfl⟩, rfl, by simp [countAdd], by simp [countDone], by simp [wgDelta]⟩
    | some r =>
      rw [proxyWebSocket_failed_resp env server rw req r err hd]
      exact ⟨⟨some r, err, rfl⟩, rfl, by simp [countAdd], by simp [countDone],
        by simp [wgDelta]⟩
  | connected resp =>
    right
    cases hu : (env.Upgrade rw req (upgradeHeader resp)).2 with
    | some e =>
      left
      rw [proxyWebSocket_upgrade_failed env server rw req resp e hd hu]
      exact ⟨⟨resp, rfl, Or.inl (by simp [hu])⟩, rfl, by simp [countAdd], by simp [countDone],
        by simp [wgDelta]⟩
    | none =>
      cases hr : env.relayEnd with
      | none =>
        right
        rw [proxyWebSocket_blocked env server rw req resp hd hu hr]
        exact ⟨⟨resp, rfl, hu, rfl⟩, rfl⟩
      | some pe =>
        left
        obtain ⟨dst, err⟩ := pe
        rw [proxyWebSocket_relayed env server rw req resp dst err hd hu hr]
        exact ⟨⟨resp, rfl, Or.inr (by simp)⟩, rfl, by simp [countAdd], by simp [countDone],
          by simp [wgDelta]⟩

/-- A returned invocation leaves the sum of its counter changes at zero. -/
theorem run_sum_zero (s : Session) (h : s.run.returned = true) :
    (s.run.events.map wgDelta).sum = 0 := by
  unfold Session.run at h ⊢
  rcases proxyWebSocket_paths s.env s.server s.rw s.req with h1 | h1 | h1
  · exact h1.2.2.2.2
  · exact h1.2.2.2.2
  · rw [h1.2] at h
    exact absurd h (by decide)

theorem sessions_sum_zero (sessions : List Session)
    (h : ∀ s ∈ sessions, s.run.returned = true) :
    ((sessions.flatMap fun s => s.run.events).map wgDelta).sum = 0 := by
  induction sessions with
  | nil => simp
  | cons s rest ih =>
    rw [List.flatMap_cons, List.map_append, List.sum_append,
      run_sum_zero s (h s (List.mem_cons_self _ _)),
      ih (fun t ht => h t (List.mem_cons_of_mem _ ht))]
    rfl

/-- C2: on every exit of `proxyWebSocket` the number of `connWaitGroup.Done`
calls equals the number of `connWaitGroup.Add(1)` calls made on that path (one
each when the dial fails, two each when the upgrade fails or the relay ends),
so the counter after a returned invocation has the value it had before; and
the events of any finite set of returned sessions, in any order, take the
counter from 0 back to 0. -/
theorem C2_wait_group_paired (env : Env) (server : URL) (rw : ResponseWriter) (req : Request) :
    (∀ resp err,
      env.Dial ("ws://" ++ server.Host ++ req.Path) (requestHeader env req)
          = DialResult.failed resp err →
        (proxyWebSocket env server rw req).returned = true ∧
        countAdd (proxyWebSocket env server rw req).events = 1 ∧
        countDone (proxyWebSocket env server rw req).events = 1) ∧
    (∀ resp e,
      env.Dial ("ws://" ++ server.Host ++ req.Path) (requestHeader env req)
          = DialResult.connected resp →
      (env.Upgrade rw req (upgradeHeader resp)).2 = some e →
        (proxyWebSocket env server rw req).returned = true ∧
        countAdd (proxyWebSocket env server rw req).events = 2 ∧
        countDone (proxyWebSocket env server rw req).events = 2) ∧
    (∀ resp dst err,
      env.Dial ("ws://" ++ server.Host ++ req.Path) (requestHeader env req)
          = DialResult.connected resp →
      (env.Upgrade rw req (upgradeHeader resp)).2 = none →
      env.relayEnd = some (dst, err) →
        (proxyWebSocket env server rw req).returned = true ∧
        countAdd (proxyWebSocket env server rw req).events = 2 ∧
        countDone (proxyWebSocket env server rw req).events = 2) ∧
    ((proxyWebSocket env server rw req).returned = true →
      countDone (proxyWebSocket env server rw req).events
          = countAdd (proxyWebSocket env server rw req).events ∧
        ∀ c, wgCounter c (proxyWebSocket env server rw req).events = c) ∧
    (∀ (sessions : List Session) (trace : List Event),
      (∀ s ∈ sessions, s.run.returned = true) →
      List.Perm trace (sessions.flatMap fun s => s.run.events) →
        wgCounter 0 trace = 0) := by
  refine ⟨?_, ?_, ?_, ?_, ?_⟩
  · intro resp err hd
    cases resp with
    | none =>
      rw [proxyWebSocket_failed_none env server rw req err hd]
      exact ⟨rfl, by simp [countAdd], by simp [countDone]⟩
    | some r =>
      rw [proxyWebSocket_failed_resp env server rw req r err hd]
      exact ⟨rfl, by simp [countAdd], by simp [countDone]⟩
  · intro resp e hd hu
    rw [proxyWebSocket_upgrade_failed env server rw req resp e hd hu]
    exact ⟨rfl, by simp [countAdd], by simp [countDone]⟩
  · intro resp dst err hd hu hr
    rw [proxyWebSocket_relayed env server rw req resp dst err hd hu hr]
    exact ⟨rfl, by simp [countAdd], by simp [countDone]⟩
  · intro hret
    rcases proxyWebSocket_paths env server rw req with h | h | h
    · refine ⟨by rw [h.2.2.1, h.2.2.2.1], fun c => ?_⟩
      rw [wgCounter_eq, h.2.2.2.2]
      omega
    · refine ⟨by rw [h.2.2.1, h.2.2.2.1], fun c => ?_⟩
      rw [wgCounter_eq, h.2.2.2.2]
      omega
    · rw [h.2] at hret
      exact absurd hret (by decide)
  · intro sessions trace hret hperm
    rw [wgCounter_perm 0 _ _ hperm, wgCounter_eq, sessions_sum_zero sessions hret]
    rfl

/-- C2 at a dial that fails without a response: one `Add(1)`, one `Done`. -/
theorem C2_wait_group_paired_witness :
    (proxyWebSocket (sampleEnv (DialResult.failed none badHandshake) none none)
        sampleServer freshWriter sampleRequest).returned = true ∧
      countAdd (proxyWebSocket (sampleEnv (DialResult.failed none badHandshake) none none)
        sampleServer freshWriter sampleRequest).events = 1 ∧
      countDone (proxyWebSocket (sampleEnv (DialResult.failed none badHandshake) none none)
        sampleServer freshWriter sampleRequest).events = 1 :=
  (C2_wait_group_paired (sampleEnv (DialResult.failed none badHandshake) none none)
    sampleServer freshWriter sampleRequest).1 none badHandshake rfl

/-! ## Message relay -/

theorem DataType.code_ne_close (t : DataType) : t.code ≠ websocket.CloseMessage := by
  cases t <;> decide

theorem written_data (t : DataType) (p : List Nat) :
    (RelayEvent.WriteMessage t.code p none).written = some (t.code, p) := by
  simp [RelayEvent.written, DataType.code_ne_close]

theorem attempted_data (t : DataType) (p : List Nat) (r : Option GoError) :
    (RelayEvent.WriteMessage t.code p r).attempted = some (t.code, p) := by
  simp [RelayEvent.attempted, DataType.code_ne_close]

theorem closeFrame_data (t : DataType) (p : List Nat) (r : Option GoError) :
    (RelayEvent.WriteMessage t.code p r).closeFrame = none := by
  simp [RelayEvent.closeFrame, DataType.code_ne_close]

theorem written_close (d : List Nat) (r : Option GoError) :
    (RelayEvent.WriteMessage websocket.CloseMessage d r).written = none := by
  cases r <;> simp [RelayEvent.written]

theorem written_failed (t : Nat) (d : List Nat) (e : GoError) :
    (RelayEvent.WriteMessage t d (some e)).written = none := rfl

theorem attempted_close (d : List Nat) (r : Option GoError) :
    (RelayEvent.WriteMessage websocket.CloseMessage d r).attempted = none := by
  simp [RelayEvent.attempted]

theorem closeFrame_close (d : List Nat) (r : Option GoError) :
    (RelayEvent.WriteMessage websocket.CloseMessage d r).closeFrame = some d := by
  simp [RelayEvent.closeFrame]

theorem written_read (r : ReadResult) : (RelayEvent.ReadMessage r).written = none := rfl

theorem written_send (e : GoError) : (RelayEvent.send e).written = none := rfl

theorem attempted_read (r : ReadResult) : (RelayEvent.ReadMessage r).attempted = none := rfl

theorem attempted_send (e : GoError) : (RelayEvent.send e).attempted = none := rfl

theorem closeFrame_read (r : ReadResult) : (RelayEvent.ReadMessage r).closeFrame = none := rfl

theorem closeFrame_send (e : GoError) : (RelayEvent.send e).closeFrame = none := rfl

theorem received_write (t : Nat) (d : List Nat) (r : Option GoError) :
    (RelayEvent.WriteMessage t d r).received = none := rfl

theorem received_send (e : GoError) : (RelayEvent.send e).received = none := rfl

theorem received_failure (e : GoError) :
    (RelayEvent.ReadMessage (ReadResult.failure e)).received = none := rfl

theorem received_message (t : DataType) (p : List Nat) :
    (RelayEvent.ReadMessage (ReadResult.message t p)).received = some (t.code, p) := rfl

theorem copyMessages_failure (dst : Nat → Option GoError) (err : GoError)
    (rest : List ReadResult) (i : Nat) :
    copyMessages dst (ReadResult.failure err :: rest) i
      = ([RelayEvent.ReadMessage (ReadResult.failure err),
          RelayEvent.WriteMessage websocket.CloseMessage (closePayload err) (dst i),
          RelayEvent.send err], true) := rfl

theorem copyMessages_write_failed (dst : Nat → Option GoError) (t : DataType) (p : List Nat)
    (rest : List ReadResult) (i : Nat) (err : GoError) (h : dst i = some err) :
    copyMessages dst (ReadResult.message t p :: rest) i
      = ([RelayEvent.ReadMessage (ReadResult.message t p),
          RelayEvent.WriteMessage t.code p (some err),
          RelayEvent.send err], true) := by
  simp only [copyMessages, h]

theorem copyMessages_written (dst : Nat → Option GoError) (t : DataType) (p : List Nat)
    (rest : List ReadResult) (i : Nat) (h : dst i = none) :
    copyMessages dst (ReadResult.message t p :: rest) i
      = (RelayEvent.ReadMessage (ReadResult.message t p)
          :: RelayEvent.WriteMessage t.code p none :: (copyMessages dst rest (i + 1)).1,
         (copyMessages dst rest (i + 1)).2) := by
  simp only [copyMessages, h]

/-- The relay hands every message it reads to the destination, unchanged and
in order; the writes that succeed are a prefix of them; what it reads is a
prefix of what the source delivers before its first failure. -/
theorem copyMessages_prefix (dst : Nat → Option GoError) (src : List ReadResult) (i : Nat) :
    (copyMessages dst src i).1.filterMap RelayEvent.attempted
        = (copyMessages dst src i).1.filterMap RelayEvent.received ∧
    (copyMessages dst src i).1.filterMap RelayEvent.written
        <+: (copyMessages dst src i).1.filterMap RelayEvent.received ∧
    (copyMessages dst src i).1.filterMap RelayEvent.received <+: messagesBeforeFailure src := by
  induction src generalizing i with
  | nil => simp [copyMessages]
  | cons r rest ih =>
    cases r with
    | failure err =>
      rw [copyMessages_failure]
      simp [written_close, attempted_close, written_read, written_send, attempted_read,
        attempted_send, received_write, received_send, received_failure]
    | message t p =>
      cases h : dst i with
      | some err =>
        rw [copyMessages_write_failed dst t p rest i err h]
        simp [written_failed, attempted_data, written_read, written_send, attempted_read,
          attempted_send, received_write, received_send, received_message,
          messagesBeforeFailure]
      | none =>
        rw [copyMessages_written dst t p rest i h]
        obtain ⟨h1, h2, h3⟩ := ih (i + 1)
        simp only [List.filterMap_cons, received_message, received_write, written_data,
          attempted_data, written_read, attempted_read, messagesBeforeFailure]
        refine ⟨by rw [h1], ?_, ?_⟩
        · exact (List.prefix_cons_inj _).mpr h2
        · exact (List.prefix_cons_inj _).mpr h3

/-- When every write succeeds, everything the source delivers before its
first read failure is written. -/
theorem copyMessages_all_written (dst : Nat → Option GoError) (src : List ReadResult) (i : Nat)
    (hw : ∀ j, dst j = none) :
    (copyMessages dst src i).1.filterMap RelayEvent.written = messagesBeforeFailure src := by
  induction src generalizing i with
  | nil => simp [copyMessages, messagesBeforeFailure]
  | cons r rest ih =>
    cases r with
    | failure err =>
      rw [copyMessages_failure]
      simp [written_close, written_read, written_send, messagesBeforeFailure]
    | message t p =>
      rw [copyMessages_written dst t p rest i (hw i)]
      simp only [List.filterMap_cons, written_data, written_read, messagesBeforeFailure]
      rw [ih (i + 1)]

/-- C3: whatever the source delivers and whatever the writes return, the data
messages `copyMessages` writes to the destination are a prefix of the messages
it read, each with the same message type and the same payload bytes, in the
same order (every message read is handed to `WriteMessage` unchanged, and the
messages read are the first ones the source delivers); and when every write
succeeds, every message the source delivers before its first read failure is
written. -/
theorem C3_relay_verbatim (dst : Nat → Option GoError) (src : List ReadResult) :
    (copyMessages dst src 0).1.filterMap RelayEvent.written
        <+: (copyMessages dst src 0).1.filterMap RelayEvent.received ∧
    (copyMessages dst src 0).1.filterMap RelayEvent.attempted
        = (copyMessages dst src 0).1.filterMap RelayEvent.received ∧
    (copyMessages dst src 0).1.filterMap RelayEvent.received <+: messagesBeforeFailure src ∧
    ((∀ j, dst j = none) →
      (copyMessages dst src 0).1.filterMap RelayEvent.written = messagesBeforeFailure src) := by
  obtain ⟨h1, h2, h3⟩ := copyMessages_prefix dst src 0
  exact ⟨h2, h1, h3, fun hw => copyMessages_all_written dst src 0 hw⟩

/-- C3 at a text message and a binary message followed by a read failure,
with every write succeeding: both messages are written as read. -/
theorem C3_relay_verbatim_witness :
    (copyMessages (fun _ => none)
        [ReadResult.message DataType.text [72, 105], ReadResult.message DataType.binary [0, 255],
         ReadResult.failure ⟨"EOF", none⟩] 0).1.filterMap RelayEvent.written
      = [(1, [72, 105]), (2, [0, 255])] :=
  (C3_relay_verbatim (fun _ => none)
    [ReadResult.message DataType.text [72, 105], ReadResult.message DataType.binary [0, 255],
     ReadResult.failure ⟨"EOF", none⟩]).2.2.2 (fun _ => rfl)

/-! ## Close propagation -/

/-- A relay whose read failed ends with the close frame built from the error
and the error on the completion channel; no close frame precedes it. -/
theorem copyMessages_read_failure (dst : Nat → Option GoError) (src : List ReadResult)
    (i : Nat) (err : GoError)
    (h : RelayEvent.ReadMessage (ReadResult.failure err) ∈ (copyMessages dst src i).1) :
    ∃ before r,
      (copyMessages dst src i).1
        = before ++ [RelayEvent.ReadMessage (ReadResult.failure err),
            RelayEvent.WriteMessage websocket.CloseMessage (closePayload err) r,
            RelayEvent.send err] ∧
      before.filterMap RelayEvent.closeFrame = [] ∧
      (copyMessages dst src i).2 = true := by
  induction src generalizing i with
  | nil => simp [copyMessages] at h
  | cons r rest ih =>
    cases r with
    | failure e =>
      rw [copyMessages_failure] at h ⊢
      have he : err = e := by simpa using h
      subst he
      exact ⟨[], dst i, rfl, rfl, rfl⟩
    | message t p =>
      cases hd : dst i with
      | some e =>
        rw [copyMessages_write_failed dst t p rest i e hd] at h
        simp at h
      | none =>
        rw [copyMessages_written dst t p rest i hd] at h ⊢
        have h1 : RelayEvent.ReadMessage (ReadResult.failure err)
            ∈ (copyMessages dst rest (i + 1)).1 := by simpa using h
        obtain ⟨before, r, heq, hnone, hret⟩ := ih (i + 1) h1
        refine ⟨RelayEvent.ReadMessage (ReadResult.message t p)
          :: RelayEvent.WriteMessage t.code p none :: before, r, ?_, ?_, hret⟩
        · simp only [heq, List.cons_append]
        · simp only [List.filterMap_cons, closeFrame_read, closeFrame_data, hnone]

theorem closePayload_status (err : GoError) (c : Nat) (t : String)
    (hclose : err.closeError = some (c, t)) (hc : c ≠ websocket.CloseNoStatusReceived) :
    closePayload err = websocket.FormatCloseMessage c t := by
  simp [closePayload, hclose, hc]

theorem closePayload_no_status (err : GoError)
    (h : err.closeError = none ∨
      ∃ t, err.closeError = some (websocket.CloseNoStatusReceived, t)) :
    closePayload err = websocket.FormatCloseMessage websocket.CloseNormalClosure err.Error := by
  rcases h with h | ⟨t, h⟩ <;> simp [closePayload, h]

/-- C8: when a read from the source fails with a close error that carries a
status code `c` other than 1005 and the reason `t`, `copyMessages` hands
exactly one close frame to the destination, with the payload
`FormatCloseMessage(c, t)` (the two bytes of `c`, then the bytes of `t`);
the error goes on the completion channel right after it and the task returns. -/
theorem C8_close_status_relayed (dst : Nat → Option GoError) (src : List ReadResult)
    (i : Nat) (err : GoError) (c : Nat) (t : String)
    (hread : RelayEvent.ReadMessage (ReadResult.failure err) ∈ (copyMessages dst src i).1)
    (hclose : err.closeError = some (c, t)) (hc : c ≠ websocket.CloseNoStatusReceived) :
    (∃ before r,
      (copyMessages dst src i).1
        = before ++ [RelayEvent.ReadMessage (ReadResult.failure err),
            RelayEvent.WriteMessage websocket.CloseMessage
              (websocket.FormatCloseMessage c t) r,
            RelayEvent.send err]) ∧
    (copyMessages dst src i).1.filterMap RelayEvent.closeFrame
      = [websocket.FormatCloseMessage c t] ∧
    websocket.FormatCloseMessage c t = [c % 65536 / 256, c % 256] ++ bytesOf t ∧
    (copyMessages dst src i).2 = true := by
  obtain ⟨before, r, heq, hnone, hret⟩ := copyMessages_read_failure dst src i err hread
  rw [closePayload_status err c t hclose hc] at heq
  refine ⟨⟨before, r, heq⟩, ?_, ?_, hret⟩
  · rw [heq, List.filterMap_append, hnone]
    simp [closeFrame_read, closeFrame_close, closeFrame_send]
  · simp [websocket.FormatCloseMessage, hc]

/-- C8 at a source that delivers one text message and then the close error
`1001 "bye"`: the only close frame carries `1001` and `"bye"`. -/
theorem C8_close_status_relayed_witness :
    (copyMessages (fun _ => none)
        [ReadResult.message DataType.text [72, 105],
         ReadResult.failure ⟨"websocket: close 1001 (going away): bye", some (1001, "bye")⟩]
        0).1.filterMap RelayEvent.closeFrame
      = [websocket.FormatCloseMessage 1001 "bye"] :=
  (C8_close_status_relayed (fun _ => none)
    [ReadResult.message DataType.text [72, 105],
     ReadResult.failure ⟨"websocket: close 1001 (going away): bye", some (1001, "bye")⟩]
    0 ⟨"websocket: close 1001 (going away): bye", some (1001, "bye")⟩ 1001 "bye"
    (by decide) rfl (by decide)).2.1

/-- C9, as amended: when a read from the source fails without a close status
(the error is not a close error, or it is a close error with code 1005),
`copyMessages` hands exactly one close frame to the destination, with the
normal-closure code 1000 and the text of the read error as its reason; the
error goes on the completion channel right after it and the task returns. -/
theorem C9_close_without_status (dst : Nat → Option GoError) (src : List ReadResult)
    (i : Nat) (err : GoError)
    (hread : RelayEvent.ReadMessage (ReadResult.failure err) ∈ (copyMessages dst src i).1)
    (hclose : err.closeError = none ∨
      ∃ t, err.closeError = some (websocket.CloseNoStatusReceived, t)) :
    (∃ before r,
      (copyMessages dst src i).1
        = before ++ [RelayEvent.ReadMessage (ReadResult.failure err),
            RelayEvent.WriteMessage websocket.CloseMessage
              (websocket.FormatCloseMessage websocket.CloseNormalClosure err.Error) r,
            RelayEvent.send err]) ∧
    (copyMessages dst src i).1.filterMap RelayEvent.closeFrame
      = [websocket.FormatCloseMessage websocket.CloseNormalClosure err.Error] ∧
    websocket.FormatCloseMessage websocket.CloseNormalClosure err.Error
      = [3, 232] ++ bytesOf err.Error ∧
    (copyMessages dst src i).2 = true := by
  obtain ⟨before, r, heq, hnone, hret⟩ := copyMessages_read_failure dst src i err hread
  rw [closePayload_no_status err hclose] at heq
  refine ⟨⟨before, r, heq⟩, ?_, ?_, hret⟩
  · rw [heq, List.filterMap_append, hnone]
    simp [closeFrame_read, closeFrame_close, closeFrame_send]
  · simp [websocket.FormatCloseMessage, websocket.CloseNormalClosure,
      websocket.CloseNoStatusReceived]

/-- C9 as amended, at a source whose first read fails with a close error of
code 1005: the close frame carries 1000 and the text of that error. -/
theorem C9_close_without_status_witness :
    (copyMessages (fun _ => none)
        [ReadResult.failure ⟨"websocket: close 1005 (no status)", some (1005, "")⟩]
        0).1.filterMap RelayEvent.closeFrame
      = [websocket.FormatCloseMessage 1000 "websocket: close 1005 (no status)"] :=
  (C9_close_without_status (fun _ => none)
    [ReadResult.failure ⟨"websocket: close 1005 (no status)", some (1005, "")⟩]
    0 ⟨"websocket: close 1005 (no status)", some (1005, "")⟩
    (by decide) (Or.inr ⟨"", rfl⟩)).2.1

/-- C9 as stated fails: after a read error that is not a close error
(a connection reset) and after a close error with code 1005, the close frame
written to the destination is not the one with code 1000 and an empty reason:
its reason is the text of the error. -/
theorem C9_counterexample :
    (copyMessages (fun _ => none) [ReadResult.failure ⟨"read tcp 10.0.0.5:8080->10.0.0.9:40112: read: connection reset by peer", none⟩]
        0).1.filterMap RelayEvent.closeFrame
      ≠ [websocket.FormatCloseMessage websocket.CloseNormalClosure ""] ∧
    (copyMessages (fun _ => none)
        [ReadResult.failure ⟨"websocket: close 1005 (no status)", some (1005, "")⟩]
        0).1.filterMap RelayEvent.closeFrame
      ≠ [websocket.FormatCloseMessage websocket.CloseNormalClosure ""] ∧
    (copyMessages (fun _ => none) [ReadResult.failure ⟨"read tcp 10.0.0.5:8080->10.0.0.9:40112: read: connection reset by peer", none⟩]
        0).1.filterMap RelayEvent.closeFrame
      = [[3, 232] ++ bytesOf "read tcp 10.0.0.5:8080->10.0.0.9:40112: read: connection reset by peer"] := by
  refine ⟨by decide, by decide, by decide⟩

/-! ## Authorization -/

theorem canonical_auth_key : CanonicalHeaderKey "X-Auth-Token" = "X-Auth-Token" := by decide

theorem WriteHeader_sent (w : ResponseWriter) (code : Nat) (h : w.sent = none) :
    (w.WriteHeader code).sent = some (code, w.Header) := by
  simp [ResponseWriter.WriteHeader, h]

theorem WriteHeader_again (w : ResponseWriter) (code : Nat) (h : w.sent ≠ none) :
    w.WriteHeader code = w := by
  unfold ResponseWriter.WriteHeader
  cases hs : w.sent with
  | none => exact absurd hs h
  | some _ => rfl

theorem Write_sent (w : ResponseWriter) (b : List Nat) (c : Nat) (hdr : Header)
    (h : w.sent = some (c, hdr)) : (w.Write b).1.sent = some (c, hdr) := by
  have hw : w.WriteHeader 200 = w := WriteHeader_again w 200 (by simp [h])
  unfold ResponseWriter.Write
  simp only [hw]
  cases w.broken <;> simp [h]

/-- The status line of `http.Error` on a writer that has sent nothing yet. -/
theorem Error_status (w : ResponseWriter) (msg : String) (code : Nat) (h : w.sent = none) :
    (http.Error w msg code).sent.map Prod.fst = some code := by
  unfold http.Error
  simp only
  rw [Write_sent _ _ code _ (WriteHeader_sent _ code (by exact h))]
  rfl

theorem Authorize_member (next : Handler) (validTokens : List String) (w : ResponseWriter)
    (r : Request) (s : World) (h : r.Header.Get "X-Auth-Token" ∈ validTokens) :
    Authorize next validTokens w r s = next w r s := by
  simp [Authorize, h]

theorem Authorize_not_member (next : Handler) (validTokens : List String)
    (w : ResponseWriter) (r : Request) (s : World)
    (h : r.Header.Get "X-Auth-Token" ∉ validTokens) :
    Authorize next validTokens w r s = (http.Error w "Forbidden" http.StatusForbidden, s) := by
  simp [Authorize, h]

/-- C4: the handler returned by `Authorize` runs the wrapped handler, on the
same writer, request and state, exactly when the value of the request's
`X-Auth-Token` header is a member of the valid-token set: the outcome is that
of the wrapped handler, for every wrapped handler, if and only if the token is
a member.  When it is not a member the outcome does not depend on the wrapped
handler: the state is untouched and the response is `http.Error` with
`Forbidden`, whose status is 403 on a writer that has sent nothing yet. -/
theorem C4_authorize_gate (validTokens : List String) (w : ResponseWriter) (r : Request)
    (s : World) :
    ((∀ next : Handler, Authorize next validTokens w r s = next w r s)
      ↔ r.Header.Get "X-Auth-Token" ∈ validTokens) ∧
    (r.Header.Get "X-Auth-Token" ∉ validTokens →
      (∀ next : Handler,
        Authorize next validTokens w r s
          = (http.Error w "Forbidden" http.StatusForbidden, s)) ∧
      (w.sent = none →
        ∀ next : Handler,
          (Authorize next validTokens w r s).1.sent.map Prod.fst = some 403)) := by
  refine ⟨⟨fun hall => ?_, fun hmem next => Authorize_member next validTokens w r s hmem⟩,
    fun hnot => ⟨fun next => Authorize_not_member next validTokens w r s hnot,
      fun hsent next => ?_⟩⟩
  · by_contra hnot
    have h1 := hall (fun w0 _ s0 => (w0, { s0 with events := [] }))
    have h2 := hall (fun w0 _ s0 => (w0, { s0 with events := [Event.panicked] }))
    rw [Authorize_not_member _ validTokens w r s hnot] at h1 h2
    have h3 := h1.symm.trans h2
    simp at h3
  · rw [Authorize_not_member next validTokens w r s hnot]
    exact Error_status w "Forbidden" 403 hsent

/-- C4 at the token sets of the unit tests: `token1` reaches the wrapped
handler, `invalid-token` is answered with 403. -/
theorem C4_authorize_gate_witness :
    (Authorize (fun w _ s => (w.WriteHeader 200, s)) ["token1", "token2"] freshWriter
        sampleRequest ⟨NewServerPool [] [], []⟩).1.sent.map Prod.fst = some 200 ∧
    (Authorize (fun w _ s => (w.WriteHeader 200, s)) ["token1", "token2"] freshWriter
        { sampleRequest with Header := [("X-Auth-Token", ["invalid-token"])] }
        ⟨NewServerPool [] [], []⟩).1.sent.map Prod.fst = some 403 :=
  ⟨by
    rw [(C4_authorize_gate ["token1", "token2"] freshWriter sampleRequest
      ⟨NewServerPool [] [], []⟩).1.mpr (by decide)]
    rfl,
   ((C4_authorize_gate ["token1", "token2"] freshWriter
      { sampleRequest with Header := [("X-Auth-Token", ["invalid-token"])] }
      ⟨NewServerPool [] [], []⟩).2 (by decide)).2 rfl _⟩

/-! ## Requests without a token -/

theorem Get_absent (h : Header) (hno : h.lookup "X-Auth-Token" = none) :
    h.Get "X-Auth-Token" = "" := by
  unfold Header.Get
  rw [canonical_auth_key, hno]

theorem auth_not_http (key : List Char) (h : "AUTH_TOKEN_".data.isPrefixOf key = true) :
    "HTTP_SERVER_URL_".data.isPrefixOf key = false ∧
      "HTTPS_SERVER_URL_".data.isPrefixOf key = false := by
  cases key with
  | nil => simp [List.isPrefixOf] at h
  | cons c cs =>
    have hc : c = 'A' := by
      simp only [List.isPrefixOf, Bool.and_eq_true, beq_iff_eq] at h
      exact h.1.symm
    subst hc
    constructor <;> simp [List.isPrefixOf]

theorem parseEnvVar_auth (urlParse : String → Option URL) (acc : Parsed) (envVar : String)
    (key value : List Char) (hs : splitAtEq envVar.data = [key, value])
    (hp : "AUTH_TOKEN_".data.isPrefixOf key = true) :
    (parseEnvVar urlParse acc envVar).validTokens
      = if String.mk value ∈ acc.validTokens then acc.validTokens
        else acc.validTokens ++ [String.mk value] := by
  obtain ⟨h1, h2⟩ := auth_not_http key hp
  unfold parseEnvVar
  rw [hs]
  simp only [h1, h2, hp, Bool.false_eq_true, if_false, if_true]
  by_cases hin : String.mk value ∈ acc.validTokens <;> simp [hin]

theorem parseEnvVar_other (urlParse : String → Option URL) (acc : Parsed) (envVar : String)
    (key value : List Char) (hs : splitAtEq envVar.data = [key, value])
    (hp : "AUTH_TOKEN_".data.isPrefixOf key = false) :
    (parseEnvVar urlParse acc envVar).validTokens = acc.validTokens := by
  unfold parseEnvVar
  rw [hs]
  simp only [hp, Bool.false_eq_true, if_false]
  by_cases h1 : "HTTP_SERVER_URL_".data.isPrefixOf key = true
  · simp only [h1, if_true]
    cases urlParse (String.mk value) <;> rfl
  · by_cases h2 : "HTTPS_SERVER_URL_".data.isPrefixOf key = true
    · simp only [h1, h2, if_true, if_false]
      cases urlParse (String.mk value) <;> rfl
    · simp [h1, h2]

theorem parseEnvVar_unsplit (urlParse : String → Option URL) (acc : Parsed) (envVar : String)
    (hs : ∀ key value, splitAtEq envVar.data ≠ [key, value]) :
    parseEnvVar urlParse acc envVar = acc := by
  unfold parseEnvVar
  split
  · rename_i key value h
    exact absurd h (hs key value)
  · rfl

/-- The tokens one environment entry adds to the valid-token set. -/
theorem parseEnvVar_tokens (urlParse : String → Option URL) (acc : Parsed) (envVar t : String) :
    t ∈ (parseEnvVar urlParse acc envVar).validTokens ↔
      t ∈ acc.validTokens ∨
        ∃ key value, splitAtEq envVar.data = [key, value] ∧
          "AUTH_TOKEN_".data.isPrefixOf key = true ∧ String.mk value = t := by
  by_cases hs : ∃ key value, splitAtEq envVar.data = [key, value]
  · obtain ⟨key, value, hs⟩ := hs
    cases hp : "AUTH_TOKEN_".data.isPrefixOf key with
    | true =>
      rw [parseEnvVar_auth urlParse acc envVar key value hs hp]
      constructor
      · intro h
        by_cases hin : String.mk value ∈ acc.validTokens
        · rw [if_pos hin] at h
          exact Or.inl h
        · rw [if_neg hin] at h
          rcases List.mem_append.mp h with h | h
          · exact Or.inl h
          · exact Or.inr ⟨key, value, hs, hp, (List.mem_singleton.mp h).symm⟩
      · rintro (h | ⟨k, v, hk, _, hv⟩)
        · by_cases hin : String.mk value ∈ acc.validTokens
          · rw [if_pos hin]
            exact h
          · rw [if_neg hin]
            exact List.mem_append_left _ h
        · rw [hs] at hk
          simp only [List.cons.injEq, and_true] at hk
          rw [hk.2, hv]
          by_cases hin : t ∈ acc.validTokens
          · rw [if_pos hin]
            exact hin
          · rw [if_neg hin]
            exact List.mem_append_right _ (List.mem_singleton_self t)
    | false =>
      rw [parseEnvVar_other urlParse acc envVar key value hs hp]
      constructor
      · exact fun h => Or.inl h
      · rintro (h | ⟨k, v, hk, hpre, _⟩)
        · exact h
        · rw [hs] at hk
          simp only [List.cons.injEq, and_true] at hk
          rw [← hk.1, hp] at hpre
          exact absurd hpre (by decide)
  · rw [parseEnvVar_unsplit urlParse acc envVar (fun k v h => hs ⟨k, v, h⟩)]
    constructor
    · exact fun h => Or.inl h
    · rintro (h | ⟨k, v, hk, _, _⟩)
      · exact h
      · exact absurd ⟨k, v, hk⟩ hs

theorem foldl_parseEnvVar_tokens (urlParse : String → Option URL) (envVars : List String)
    (acc : Parsed) (t : String) :
    t ∈ (envVars.foldl (parseEnvVar urlParse) acc).validTokens ↔
      t ∈ acc.validTokens ∨
        ∃ e ∈ envVars, ∃ key value, splitAtEq e.data = [key, value] ∧
          "AUTH_TOKEN_".data.isPrefixOf key = true ∧ String.mk value = t := by
  induction envVars generalizing acc with
  | nil => simp
  | cons e rest ih =>
    rw [List.foldl_cons, ih, parseEnvVar_tokens]
    constructor
    · rintro ((h | ⟨k, v, h⟩) | ⟨e1, he1, h⟩)
      · exact Or.inl h
      · exact Or.inr ⟨e, List.mem_cons_self _ _, k, v, h⟩
      · exact Or.inr ⟨e1, List.mem_cons_of_mem _ he1, h⟩
    · rintro (h | ⟨e1, he1, k, v, h⟩)
      · exact Or.inl (Or.inl h)
      · rcases List.mem_cons.mp he1 with rfl | hr
        · exact Or.inl (Or.inr ⟨k, v, h⟩)
        · exact Or.inr ⟨e1, hr, k, v, h⟩

/-- The valid tokens are the values of the `AUTH_TOKEN_` variables. -/
theorem parseEnvVars_tokens (urlParse : String → Option URL) (envVars : List String)
    (t : String) :
    t ∈ (parseEnvVars urlParse envVars).validTokens ↔
      ∃ e ∈ envVars, ∃ key value, splitAtEq e.data = [key, value] ∧
        "AUTH_TOKEN_".data.isPrefixOf key = true ∧ String.mk value = t := by
  unfold parseEnvVars
  rw [foldl_parseEnvVar_tokens]
  constructor
  · rintro (h | h)
    · exact absurd h (List.not_mem_nil t)
    · exact h
  · exact fun h => Or.inr h

/-- The empty token is valid exactly when some `AUTH_TOKEN_` variable has an
empty value. -/
theorem parseEnvVars_empty_token (urlParse : String → Option URL) (envVars : List String) :
    "" ∈ (parseEnvVars urlParse envVars).validTokens ↔ ∃ e ∈ envVars, emptyToken e = true := by
  rw [parseEnvVars_tokens]
  constructor
  · rintro ⟨e, he, k, v, hs, hp, hv⟩
    refine ⟨e, he, ?_⟩
    have hv0 : v = [] := by
      have := congrArg String.data hv
      simpa using this
    simp [emptyToken, hs, hp, hv0]
  · rintro ⟨e, he, h⟩
    unfold emptyToken at h
    split at h
    · rename_i k v hs
      simp only [Bool.and_eq_true, List.isEmpty_iff] at h
      exact ⟨e, he, k, v, hs, h.1, by rw [h.2]⟩
    · exact absurd h (by decide)

theorem longest_step_mem (path : String) (l : List (String × Handler))
    (best : Option (String × Handler)) (e : String × Handler)
    (h : l.foldl (fun best e =>
        if e.1.data.getLast? = some '/' ∧ e.1.data.isPrefixOf path.data then
          match best with
          | none => some e
          | some b => if b.1.length < e.1.length then some e else some b
        else best) best = some e) :
    best = some e ∨ e ∈ l := by
  induction l generalizing best with
  | nil => exact Or.inl h
  | cons x rest ih =>
    rw [List.foldl_cons] at h
    rcases ih _ h with h1 | h1
    · by_cases hc : x.1.data.getLast? = some '/' ∧ x.1.data.isPrefixOf path.data
      · rw [if_pos hc] at h1
        cases best with
        | none =>
          simp only [Option.some.injEq] at h1
          exact Or.inr (h1 ▸ List.mem_cons_self _ _)
        | some b =>
          by_cases hl : b.1.length < x.1.length
          · simp only [hl, if_true, Option.some.injEq] at h1
            exact Or.inr (h1 ▸ List.mem_cons_self _ _)
          · simp only [hl, if_false] at h1
            exact Or.inl h1
      · rw [if_neg hc] at h1
        exact Or.inl h1
    · exact Or.inr (List.mem_cons_of_mem _ h1)

/-- The mux runs one of its registered handlers or answers 404 without
touching the state. -/
theorem ServeHTTP_cases (mux : ServeMux) (w : ResponseWriter) (r : Request) (s : World) :
    (∃ e ∈ mux, mux.ServeHTTP w r s = e.2 w r s) ∨
      mux.ServeHTTP w r s = (http.Error w "404 page not found" http.StatusNotFound, s) := by
  unfold ServeMux.ServeHTTP
  cases hx : ServeMux.exact mux r.Path with
  | some e =>
    left
    exact ⟨e, List.mem_of_find?_eq_some hx, by simp [Option.orElse]⟩
  | none =>
    cases hl : ServeMux.longest mux r.Path with
    | some e =>
      left
      refine ⟨e, ?_, by simp [Option.orElse, hl]⟩
      rcases longest_step_mem r.Path mux none e hl with h | h
      · exact absurd h (by simp)
      · exact h
    | none =>
      right
      simp [Option.orElse, hl]

theorem mem_httpMux (env : Env) (validTokens : List String) (skipCertCheck : Bool)
    (e : String × Handler) (h : e ∈ httpMux env validTokens skipCertCheck) :
    e.2 = wsHandler env validTokens skipCertCheck ∨
      e.2 = httpHandler env validTokens skipCertCheck := by
  simp only [httpMux, ServeMux.HandleFunc, http.NewServeMux, List.nil_append, List.cons_append,
    List.mem_cons, List.mem_singleton, List.not_mem_nil, or_false] at h
  rcases h with rfl | rfl
  · exact Or.inl rfl
  · exact Or.inr rfl

/-- A request whose token is not valid leaves the shared state as it was, on
either listener of `main`: no backend is selected and nothing is dialled. -/
theorem serverHandler_rejected (env : Env) (validTokens : List String) (skipCertCheck : Bool)
    (l : Listener) (w : ResponseWriter) (r : Request) (s : World)
    (h : r.Header.Get "X-Auth-Token" ∉ validTokens) :
    (serverHandler env validTokens skipCertCheck l w r s).2 = s := by
  cases l with
  | tls8443 =>
    show (Authorize _ validTokens w r s).2 = s
    rw [Authorize_not_member _ validTokens w r s h]
  | plaintext8080 =>
    show ((httpMux env validTokens skipCertCheck).ServeHTTP w r s).2 = s
    rcases ServeHTTP_cases (httpMux env validTokens skipCertCheck) w r s with ⟨e, he, heq⟩ | heq
    · rw [heq]
      rcases mem_httpMux env validTokens skipCertCheck e he with h1 | h1
      · rw [h1]
        show (Authorize _ validTokens w r s).2 = s
        rw [Authorize_not_member _ validTokens w r s h]
      · rw [h1]
        show (Authorize _ validTokens w r s).2 = s
        rw [Authorize_not_member _ validTokens w r s h]
    · rw [heq]

/-- C10, as amended: for every set of valid tokens that `parseEnvVars`
produces from an environment in which no `AUTH_TOKEN_` variable has an empty
value (these are its results that do not contain the empty token), a request
that carries no `X-Auth-Token` header is answered with 403 Forbidden by
`Authorize` whatever the wrapped handler is, and on both listeners of `main`
it leaves the pool and the event list untouched: no backend is selected. -/
theorem C10_missing_token_forbidden (urlParse : String → Option URL) (envVars : List String)
    (env : Env) (skipCertCheck : Bool) (w : ResponseWriter) (r : Request) (s : World)
    (hcfg : ∀ e ∈ envVars, emptyToken e = false)
    (hno : r.Header.lookup "X-Auth-Token" = none) :
    "" ∉ (parseEnvVars urlParse envVars).validTokens ∧
    (∀ next : Handler,
      Authorize next (parseEnvVars urlParse envVars).validTokens w r s
        = (http.Error w "Forbidden" http.StatusForbidden, s)) ∧
    (w.sent = none → ∀ next : Handler,
      (Authorize next (parseEnvVars urlParse envVars).validTokens w r s).1.sent.map Prod.fst
        = some 403) ∧
    (∀ l : Listener,
      (serverHandler env (parseEnvVars urlParse envVars).validTokens skipCertCheck l w r s).2
        = s) := by
  have hempty : "" ∉ (parseEnvVars urlParse envVars).validTokens := by
    rw [parseEnvVars_empty_token]
    rintro ⟨e, he, h⟩
    rw [hcfg e he] at h
    exact absurd h (by decide)
  have hnot : r.Header.Get "X-Auth-Token" ∉ (parseEnvVars urlParse envVars).validTokens := by
    rw [Get_absent r.Header hno]
    exact hempty
  refine ⟨hempty, fun next => Authorize_not_member next _ w r s hnot, fun hsent next => ?_,
    fun l => serverHandler_rejected env _ skipCertCheck l w r s hnot⟩
  rw [Authorize_not_member next _ w r s hnot]
  exact Error_status w "Forbidden" 403 hsent

/-- C10 as amended, at the environment with one backend and the token
`token1`: the request without a header gets 403 and the pool is not touched. -/
theorem C10_missing_token_forbidden_witness :
    (serverHandler (sampleEnv (DialResult.failed none badHandshake) none none)
        (parseEnvVars (fun _ => some sampleServer)
          ["HTTP_SERVER_URL_1=http://localhost:9001", "AUTH_TOKEN_1=token1"]).validTokens
        false Listener.plaintext8080 freshWriter anonymousRequest
        ⟨NewServerPool [sampleServer] [], []⟩).2
      = ⟨NewServerPool [sampleServer] [], []⟩ :=
  (C10_missing_token_forbidden (fun _ => some sampleServer)
    ["HTTP_SERVER_URL_1=http://localhost:9001", "AUTH_TOKEN_1=token1"]
    (sampleEnv (DialResult.failed none badHandshake) none none) false freshWriter
    anonymousRequest ⟨NewServerPool [sampleServer] [], []⟩
    (by decide) rfl).2.2.2 Listener.plaintext8080

/-- C10 as stated fails: from an environment with `AUTH_TOKEN_1=` the valid
tokens are the empty token alone, and the request without any header then
passes `Authorize` on the plaintext listener: a backend is selected (the
counter moves to 1), the request is forwarded to it, and the answer is not 403. -/
theorem C10_counterexample :
    (parseEnvVars (fun _ => some sampleServer)
        ["HTTP_SERVER_URL_1=http://localhost:9001", "AUTH_TOKEN_1="]).validTokens = [""] ∧
    Header.lookup anonymousRequest.Header "X-Auth-Token" = none ∧
    (serverHandler (sampleEnv (DialResult.failed none badHandshake) none none)
        (parseEnvVars (fun _ => some sampleServer)
          ["HTTP_SERVER_URL_1=http://localhost:9001", "AUTH_TOKEN_1="]).validTokens
        false Listener.plaintext8080 freshWriter anonymousRequest
        ⟨NewServerPool [sampleServer] [], []⟩)
      = ({ freshWriter with sent := some (200, []) },
         ⟨{ NewServerPool [sampleServer] [] with currentHttp := 1 },
          [Event.ReverseProxy sampleServer false]⟩) := by
  refine ⟨by decide, by decide, by decide⟩

/-! ## Relaying the response of a failed dial -/

theorem lookup_put (h : Header) (key key1 : String) (vs : List String) :
    (h.put key vs).lookup key1 = if key = key1 then some vs else h.lookup key1 := by
  induction h with
  | nil => simp [Header.put, Header.lookup]
  | cons e rest ih =>
    obtain ⟨k, old⟩ := e
    by_cases hk : k = key
    · subst hk
      by_cases h1 : k = key1 <;> simp [Header.put, Header.lookup, h1]
    · by_cases h1 : k = key1
      · subst h1
        have hne : ¬ key = k := fun h => hk h.symm
        simp [Header.put, Header.lookup, hk, hne]
      · simp [Header.put, Header.lookup, hk, h1, ih]

theorem values_Add (h : Header) (key value key1 : String) :
    (h.Add key value).values key1
      = if CanonicalHeaderKey key = key1 then h.values key1 ++ [value] else h.values key1 := by
  unfold Header.Add Header.values
  rw [lookup_put]
  by_cases hk : CanonicalHeaderKey key = key1
  · subst hk
    simp
  · simp [hk]

theorem values_addAll (h : Header) (key key1 : String) (vs : List String) :
    (vs.foldl (fun h1 v => Header.Add h1 key v) h).values key1
      = if CanonicalHeaderKey key = key1 then h.values key1 ++ vs else h.values key1 := by
  induction vs generalizing h with
  | nil => simp
  | cons v rest ih =>
    rw [List.foldl_cons, ih, values_Add]
    by_cases hk : CanonicalHeaderKey key = key1 <;> simp [hk]

/-- The values a key has after the header loop of `copyResponse`: those it
had, then those of the response entries with that canonical key, in order. -/
theorem values_copied (entries h : Header) (key1 : String) :
    (entries.foldl (fun h0 kv => kv.2.foldl (fun h1 v => Header.Add h1 kv.1 v) h0) h).values key1
      = h.values key1
        ++ (entries.filter fun e => CanonicalHeaderKey e.1 = key1).flatMap Prod.snd := by
  induction entries generalizing h with
  | nil => simp
  | cons e rest ih =>
    rw [List.foldl_cons, ih, values_addAll]
    by_cases hk : CanonicalHeaderKey e.1 = key1
    · simp [hk, List.filter_cons]
    · simp [hk, List.filter_cons]

theorem lookup_none_of_not_mem (h : Header) (key : String)
    (hk : key ∉ h.map Prod.fst) : h.lookup key = none := by
  induction h with
  | nil => rfl
  | cons e rest ih =>
    obtain ⟨k, vs⟩ := e
    simp only [List.map_cons, List.mem_cons, not_or] at hk
    have hne : ¬ k = key := fun h => hk.1 h.symm
    simp [Header.lookup, hne, ih hk.2]

/-- In a well-formed header map the entries with a given canonical key are
the entry of that key. -/
theorem values_wellFormed (h : Header) (key1 : String) (hwf : h.wellFormed) :
    (h.filter fun e => CanonicalHeaderKey e.1 = key1).flatMap Prod.snd = h.values key1 := by
  induction h with
  | nil => rfl
  | cons e rest ih =>
    obtain ⟨k, vs⟩ := e
    obtain ⟨hcanon, hnodup⟩ := hwf
    have hk : CanonicalHeaderKey k = k := hcanon (k, vs) (List.mem_cons_self _ _)
    have hrest : Header.wellFormed rest :=
      ⟨fun e he => hcanon e (List.mem_cons_of_mem _ he), (List.nodup_cons.mp hnodup).2⟩
    have hnot : k ∉ rest.map Prod.fst := (List.nodup_cons.mp hnodup).1
    by_cases h1 : k = key1
    · subst h1
      have hnone : (rest.filter fun e => CanonicalHeaderKey e.1 = k) = [] := by
        rw [List.filter_eq_nil_iff]
        intro e he hce
        have hce1 : CanonicalHeaderKey e.1 = k := by simpa using hce
        rw [hcanon e (List.mem_cons_of_mem _ he)] at hce1
        exact hnot (List.mem_map.mpr ⟨e, he, hce1⟩)
      simp [List.filter_cons, hk, hnone, Header.values, Header.lookup]
    · have hne : ¬ CanonicalHeaderKey k = key1 := by rw [hk]; exact h1
      have := ih hrest
      simp only [Header.values] at this
      simp [List.filter_cons, hne, Header.values, Header.lookup, h1, this]

theorem ioCopy_sent (w : ResponseWriter) (body : List Nat) (c : Nat) (hdr : Header)
    (h : w.sent = some (c, hdr)) : (ioCopy w body).1.sent = some (c, hdr) := by
  unfold ioCopy
  by_cases hb : body = []
  · simp [hb, h]
  · simp only [hb, if_false]
    exact Write_sent w body c hdr h

theorem ioCopy_body (w : ResponseWriter) (body : List Nat) (c : Nat) (hdr : Header)
    (h : w.sent = some (c, hdr)) (hok : w.broken = none) :
    (ioCopy w body).1.body = w.body ++ body ∧ (ioCopy w body).2 = none := by
  unfold ioCopy
  by_cases hb : body = []
  · simp [hb]
  · have hw : w.WriteHeader 200 = w := WriteHeader_again w 200 (by simp [h])
    simp [hb, ResponseWriter.Write, hw, hok]

theorem ioCopy_after_WriteHeader (w : ResponseWriter) (c : Nat) (body : List Nat)
    (hsent : w.sent = none) (hok : w.broken = none) :
    (ioCopy (w.WriteHeader c) body).1.body = w.body ++ body ∧
      (ioCopy (w.WriteHeader c) body).2 = none := by
  have h := ioCopy_body (w.WriteHeader c) body c w.Header (WriteHeader_sent w c hsent)
    (by simp [ResponseWriter.WriteHeader, hsent, hok])
  simpa [ResponseWriter.WriteHeader, hsent] using h

/-- What `copyResponse` leaves on a writer that has sent nothing yet. -/
theorem copyResponse_spec (rw : ResponseWriter) (resp : Response) (hsent : rw.sent = none) :
    ∃ hdr, (copyResponse rw resp).1.sent = some (resp.StatusCode, hdr) ∧
      (∀ key, hdr.values key = rw.Header.values key
        ++ (resp.Header.filter fun e => CanonicalHeaderKey e.1 = key).flatMap Prod.snd) ∧
      (rw.broken = none →
        (copyResponse rw resp).1.body = rw.body ++ resp.Body ∧ (copyResponse rw resp).2 = none) := by
  refine ⟨resp.Header.foldl
    (fun h kv => kv.2.foldl (fun h1 v => Header.Add h1 kv.1 v) h) rw.Header, ?_, ?_, ?_⟩
  · unfold copyResponse
    exact ioCopy_sent _ _ _ _ (WriteHeader_sent _ _ hsent)
  · intro key
    exact values_copied resp.Header rw.Header key
  · intro hok
    unfold copyResponse
    apply ioCopy_after_WriteHeader
    · exact hsent
    · exact hok

/-- C5: when the backend dial in `proxyWebSocket` fails, the invocation does
nothing but the one dial and its counter pair: the inbound connection is not
upgraded, no relay task is started, no second dial is made.  If the dial
returned a response, the client is sent that response's status code, under
every key the values the writer already had followed by the values of the
response (its own values, for the well-formed header map of a parsed response
on a writer without headers), and, the client connection accepting the write,
the body bytes unchanged; if there is no response the client is sent 503. -/
theorem C5_failed_dial_response (env : Env) (server : URL) (rw : ResponseWriter)
    (req : Request) (resp : Option Response) (err : GoError)
    (hd : env.Dial ("ws://" ++ server.Host ++ req.Path) (requestHeader env req)
      = DialResult.failed resp err)
    (hsent : rw.sent = none) :
    (proxyWebSocket env server rw req).events
      = [Event.DialCall ("ws://" ++ server.Host ++ req.Path) (requestHeader env req),
         Event.DialReturn false, Event.wgAdd 1, Event.wgDone] ∧
    (∀ h ok, Event.Upgrade h ok ∉ (proxyWebSocket env server rw req).events) ∧
    (∀ dst src, Event.goCopyMessages dst src ∉ (proxyWebSocket env server rw req).events) ∧
    (∀ r, resp = some r →
      ∃ hdr, (proxyWebSocket env server rw req).rw.sent = some (r.StatusCode, hdr) ∧
        (∀ key, hdr.values key = rw.Header.values key
          ++ (r.Header.filter fun e => CanonicalHeaderKey e.1 = key).flatMap Prod.snd) ∧
        (r.Header.wellFormed →
          ∀ key, hdr.values key = rw.Header.values key ++ r.Header.values key) ∧
        (rw.broken = none →
          (proxyWebSocket env server rw req).rw.body = rw.body ++ r.Body)) ∧
    (resp = none →
      (proxyWebSocket env server rw req).rw.sent.map Prod.fst = some 503) := by
  have hev : (proxyWebSocket env server rw req).events
      = [Event.DialCall ("ws://" ++ server.Host ++ req.Path) (requestHeader env req),
         Event.DialReturn false, Event.wgAdd 1, Event.wgDone] := by
    cases resp with
    | none => rw [proxyWebSocket_failed_none env server rw req err hd]
    | some r => rw [proxyWebSocket_failed_resp env server rw req r err hd]
  refine ⟨hev, ?_, ?_, ?_, ?_⟩
  · intro h ok
    rw [hev]
    simp
  · intro dst src
    rw [hev]
    simp
  · intro r hr
    subst hr
    rw [proxyWebSocket_failed_resp env server rw req r err hd]
    obtain ⟨hdr, h1, h2, h3⟩ := copyResponse_spec rw r hsent
    refine ⟨hdr, h1, h2, ?_, fun hok => (h3 hok).1⟩
    intro hwf key
    rw [h2 key, values_wellFormed r.Header key hwf]
  · intro hr
    subst hr
    rw [proxyWebSocket_failed_none env server rw req err hd]
    exact Error_status rw _ 503 hsent

/-- C5 at a backend that refuses the handshake with a 401 response: the
client is sent 401 and the two body bytes of the refusal. -/
theorem C5_failed_dial_response_witness :
    (proxyWebSocket (sampleEnv (DialResult.failed (some refusal) badHandshake) none none)
        sampleServer freshWriter sampleRequest).rw.sent.map Prod.fst = some 401 ∧
    (proxyWebSocket (sampleEnv (DialResult.failed (some refusal) badHandshake) none none)
        sampleServer freshWriter sampleRequest).rw.body = [110, 111] := by
  obtain ⟨hdr, h1, _, _, h4⟩ :=
    (C5_failed_dial_response (sampleEnv (DialResult.failed (some refusal) badHandshake) none none)
      sampleServer freshWriter sampleRequest (some refusal) badHandshake rfl rfl).2.2.2.1
      refusal rfl
  exact ⟨by rw [h1]; rfl, h4 rfl⟩

/-! ## Listener wiring -/

/-- On the plaintext listener a request for `/websocket` runs `wsHandler`
and a request for another path under `/` runs `httpHandler`. -/
theorem plaintext_routing (env : Env) (validTokens : List String) (skipCertCheck : Bool)
    (w : ResponseWriter) (r : Request) (s : World) :
    (r.Path = "/websocket" →
      serverHandler env validTokens skipCertCheck Listener.plaintext8080 w r s
        = wsHandler env validTokens skipCertCheck w r s) ∧
    (r.Path ≠ "/websocket" → "/".data.isPrefixOf r.Path.data = true →
      serverHandler env validTokens skipCertCheck Listener.plaintext8080 w r s
        = httpHandler env validTokens skipCertCheck w r s) := by
  constructor
  · intro hp
    simp [serverHandler, ServeMux.ServeHTTP, httpMux, ServeMux.HandleFunc, http.NewServeMux,
      ServeMux.exact, hp, Option.orElse]
  · intro hp hpre
    have h1 : ¬ "/websocket" = r.Path := fun h => hp h.symm
    by_cases h2 : "/" = r.Path
    · simp [serverHandler, ServeMux.ServeHTTP, httpMux, ServeMux.HandleFunc, http.NewServeMux,
        ServeMux.exact, h1, h2, Option.orElse, List.find?]
    · have hpre1 : "/".data.isPrefixOf r.Path.data = true := hpre
      have hw : ¬ ("/websocket".data.getLast? = some '/'
          ∧ "/websocket".data.isPrefixOf r.Path.data = true) := fun h =>
        absurd h.1 (by decide)
      have hs : "/".data.getLast? = some '/' ∧ "/".data.isPrefixOf r.Path.data = true :=
        ⟨by decide, hpre1⟩
      simp only [serverHandler, ServeMux.ServeHTTP, httpMux, ServeMux.HandleFunc,
        http.NewServeMux, ServeMux.exact, ServeMux.longest, List.nil_append, List.cons_append,
        List.find?, List.foldl, h1, h2, decide_False, Option.orElse, hw, hs, if_true, if_false,
        and_self]

/-- C7, the code at the failing input: on the TLS listener `main` installs
`httpsHandler` itself, not `httpsMux`, so every request, whatever its path, runs
the handler built with `ws = false`, and a request for `/websocket` is served
by the plain HTTPS forwarder (a backend of the TLS class is selected and the
request goes through the reverse proxy; nothing is dialled), while `httpsMux`,
which `main` builds and leaves unused, and the plaintext listener both hand the
same request to the WebSocket bridge. -/
theorem C7_tls_listener_bypasses_mux :
    (∀ (env : Env) (validTokens : List String) (skipCertCheck : Bool) (w : ResponseWriter)
        (r : Request) (s : World),
      serverHandler env validTokens skipCertCheck Listener.tls8443 w r s
        = LogRequest (Authorize (ProxyHandler env false true skipCertCheck) validTokens) w r s) ∧
    (serverHandler (sampleEnv (DialResult.failed none badHandshake) none none) ["token1"] false
        Listener.tls8443 freshWriter { sampleRequest with TLS := true }
        ⟨NewServerPool [sampleServer] [sampleTlsServer], []⟩).2
      = ⟨{ NewServerPool [sampleServer] [sampleTlsServer] with currentHttps := 1 },
         [Event.ReverseProxy sampleTlsServer false]⟩ ∧
    ((httpsMux (sampleEnv (DialResult.failed none badHandshake) none none) ["token1"]
        false).ServeHTTP freshWriter { sampleRequest with TLS := true }
        ⟨NewServerPool [sampleServer] [sampleTlsServer], []⟩).2.events.head?
      = some (Event.DialCall "ws://localhost:9001/websocket"
          (requestHeader (sampleEnv (DialResult.failed none badHandshake) none none)
            { sampleRequest with TLS := true })) ∧
    (serverHandler (sampleEnv (DialResult.failed none badHandshake) none none) ["token1"] false
        Listener.plaintext8080 freshWriter sampleRequest
        ⟨NewServerPool [sampleServer] [sampleTlsServer], []⟩).2.events.head?
      = some (Event.DialCall "ws://localhost:9001/websocket"
          (requestHeader (sampleEnv (DialResult.failed none badHandshake) none none)
            sampleRequest)) := by
  refine ⟨fun _ _ _ _ _ _ => rfl, by decide, by decide, by decide⟩

/-! ## Selection stays inside the registry -/

/-- C11: for every pool whose registry for the requested class is not empty
and every value of that class's counter, `NextHttpServer` and
`NextHttpsServer` compute an index strictly below the registry length, do not
panic, and return the registry entry at that index, an element of the
registry; nothing but that class's counter changes. -/
theorem C11_selection_in_bounds (p : ServerPool) :
    (p.httpServers ≠ [] →
      atomicAddUint64 p.currentHttp 1 % p.httpServers.length < p.httpServers.length ∧
      (∃ u, p.NextHttpServer.1 = some u ∧
        p.httpServers[atomicAddUint64 p.currentHttp 1 % p.httpServers.length]? = some u ∧
        u ∈ p.httpServers) ∧
      p.NextHttpServer.2 = { p with currentHttp := atomicAddUint64 p.currentHttp 1 }) ∧
    (p.httpsServers ≠ [] →
      atomicAddUint64 p.currentHttps 1 % p.httpsServers.length < p.httpsServers.length ∧
      (∃ u, p.NextHttpsServer.1 = some u ∧
        p.httpsServers[atomicAddUint64 p.currentHttps 1 % p.httpsServers.length]? = some u ∧
        u ∈ p.httpsServers) ∧
      p.NextHttpsServer.2 = { p with currentHttps := atomicAddUint64 p.currentHttps 1 }) := by
  constructor
  · intro hne
    have hpos : 0 < p.httpServers.length := List.length_pos.mpr hne
    have hlt : atomicAddUint64 p.currentHttp 1 % p.httpServers.length < p.httpServers.length :=
      Nat.mod_lt _ hpos
    refine ⟨hlt, ⟨p.httpServers[atomicAddUint64 p.currentHttp 1 % p.httpServers.length], ?_,
      List.getElem?_eq_getElem hlt, List.getElem_mem hlt⟩, NextHttpServer_snd p⟩
    rw [NextHttpServer_fst, List.getElem?_eq_getElem hlt]
  · intro hne
    have hpos : 0 < p.httpsServers.length := List.length_pos.mpr hne
    have hlt : atomicAddUint64 p.currentHttps 1 % p.httpsServers.length
        < p.httpsServers.length := Nat.mod_lt _ hpos
    refine ⟨hlt, ⟨p.httpsServers[atomicAddUint64 p.currentHttps 1 % p.httpsServers.length], ?_,
      List.getElem?_eq_getElem hlt, List.getElem_mem hlt⟩, NextHttpsServer_snd p⟩
    rw [NextHttpsServer_fst, List.getElem?_eq_getElem hlt]

/-- C11 at a pool of three backends whose plaintext counter holds the largest
`uint64`: the counter wraps to 0 and the first backend is returned. -/
theorem C11_selection_in_bounds_witness :
    atomicAddUint64 (2 ^ 64 - 1) 1 % 3 < 3 ∧
    ∃ u, (ServerPool.NextHttpServer
        ⟨[⟨"http", "b1", ""⟩, ⟨"http", "b2", ""⟩, ⟨"http", "b3", ""⟩], [], 2 ^ 64 - 1, 0⟩).1
          = some u ∧
      [(⟨"http", "b1", ""⟩ : URL), ⟨"http", "b2", ""⟩, ⟨"http", "b3", ""⟩][
        atomicAddUint64 (2 ^ 64 - 1) 1 % 3]? = some u ∧
      u ∈ [(⟨"http", "b1", ""⟩ : URL), ⟨"http", "b2", ""⟩, ⟨"http", "b3", ""⟩] :=
  ⟨((C11_selection_in_bounds
      ⟨[⟨"http", "b1", ""⟩, ⟨"http", "b2", ""⟩, ⟨"http", "b3", ""⟩], [], 2 ^ 64 - 1, 0⟩).1
      (by decide)).1,
   ((C11_selection_in_bounds
      ⟨[⟨"http", "b1", ""⟩, ⟨"http", "b2", ""⟩, ⟨"http", "b3", ""⟩], [], 2 ^ 64 - 1, 0⟩).1
      (by decide)).2.1⟩

/-! ## Forwarding headers of the handshake -/

theorem lookup_Set (h : Header) (key value key1 : String) :
    (h.Set key value).lookup key1
      = if CanonicalHeaderKey key = key1 then some [value] else h.lookup key1 := by
  unfold Header.Set
  exact lookup_put h _ key1 [value]

theorem canonical_forwarded_for :
    CanonicalHeaderKey "X-Forwarded-For" = "X-Forwarded-For" := by decide

theorem canonical_forwarded_proto :
    CanonicalHeaderKey "X-Forwarded-Proto" = "X-Forwarded-Proto" := by decide

/-- Joining with a separator a list extended by one more entry. -/
theorem intercalate_go_append (sep x : String) (l : List String) (acc : String) :
    String.intercalate.go acc sep (l ++ [x]) = String.intercalate.go acc sep l ++ sep ++ x := by
  induction l generalizing acc with
  | nil => simp [String.intercalate.go]
  | cons a rest ih => simp [String.intercalate.go, ih]

theorem intercalate_append (sep x : String) (l : List String) (hne : l ≠ []) :
    String.intercalate sep (l ++ [x]) = String.intercalate sep l ++ sep ++ x := by
  cases l with
  | nil => exact absurd rfl hne
  | cons a rest =>
    simp only [List.cons_append, String.intercalate]
    exact intercalate_go_append sep x rest a

/-- The `X-Forwarded-For` entry of the dial header, once the remote address
splits into host and port. -/
theorem requestHeader_forwarded_for (env : Env) (req : Request) (clientIP port : String)
    (hsplit : env.SplitHostPort req.RemoteAddr = some (clientIP, port)) :
    (requestHeader env req).lookup "X-Forwarded-For"
      = some [match req.Header.lookup "X-Forwarded-For" with
          | some prior => String.intercalate ", " prior ++ ", " ++ clientIP
          | none => clientIP] := by
  have hne : ¬ "X-Forwarded-Proto" = "X-Forwarded-For" := by decide
  unfold requestHeader
  simp only [hsplit]
  cases req.TLS <;>
    simp [lookup_Set, canonical_forwarded_for, canonical_forwarded_proto, hne]

/-- C12: for an inbound request whose remote address splits into the client
IP and a port, the dial header that `proxyWebSocket` hands to the backend dial
has exactly one `X-Forwarded-For` value.  When the request carries the values
`v1..vn`, `n ≥ 1`, it is these joined with `", "` and then `", "` and the
client IP, which is the join of `v1, ..., vn, <client IP>`; when the request
carries none it is the client IP. -/
theorem C12_forwarded_for_appended (env : Env) (server : URL) (rw : ResponseWriter)
    (req : Request) (clientIP port : String)
    (hsplit : env.SplitHostPort req.RemoteAddr = some (clientIP, port)) :
    (proxyWebSocket env server rw req).events.head?
      = some (Event.DialCall ("ws://" ++ server.Host ++ req.Path) (requestHeader env req)) ∧
    (∀ prior, prior ≠ [] → req.Header.lookup "X-Forwarded-For" = some prior →
      (requestHeader env req).lookup "X-Forwarded-For"
          = some [String.intercalate ", " prior ++ ", " ++ clientIP] ∧
        String.intercalate ", " prior ++ ", " ++ clientIP
          = String.intercalate ", " (prior ++ [clientIP])) ∧
    (req.Header.lookup "X-Forwarded-For" = none →
      (requestHeader env req).lookup "X-Forwarded-For" = some [clientIP]) := by
  refine ⟨?_, ?_, ?_⟩
  · rcases hd : env.Dial ("ws://" ++ server.Host ++ req.Path) (requestHeader env req)
      with resp | ⟨resp, err⟩
    · cases hu : (env.Upgrade rw req (upgradeHeader resp)).2 with
      | some e => rw [proxyWebSocket_upgrade_failed env server rw req resp e hd hu]; rfl
      | none =>
        cases hr : env.relayEnd with
        | none => rw [proxyWebSocket_blocked env server rw req resp hd hu hr]; rfl
        | some pe =>
          obtain ⟨dst, err⟩ := pe
          rw [proxyWebSocket_relayed env server rw req resp dst err hd hu hr]
          rfl
    · cases resp with
      | none => rw [proxyWebSocket_failed_none env server rw req err hd]; rfl
      | some r => rw [proxyWebSocket_failed_resp env server rw req r err hd]; rfl
  · intro prior hne hprior
    rw [requestHeader_forwarded_for env req clientIP port hsplit, hprior]
    exact ⟨rfl, (intercalate_append ", " clientIP prior hne).symm⟩
  · intro hnone
    rw [requestHeader_forwarded_for env req clientIP port hsplit, hnone]

/-- C12 at a request from `10.0.0.7` that carries `1.1.1.1` and `2.2.2.2`. -/
theorem C12_forwarded_for_appended_witness :
    (requestHeader (sampleEnv (DialResult.failed none badHandshake) none none)
        forwardedRequest).lookup "X-Forwarded-For"
      = some ["1.1.1.1, 2.2.2.2, 10.0.0.7"] :=
  ((C12_forwarded_for_appended (sampleEnv (DialResult.failed none badHandshake) none none)
      sampleServer freshWriter forwardedRequest "10.0.0.7" "51000" rfl).2.1
    ["1.1.1.1", "2.2.2.2"] (by decide) rfl).1

/-! ## Headers of the inbound upgrade -/

theorem canonical_set_cookie : CanonicalHeaderKey "Set-Cookie" = "Set-Cookie" := by decide

/-- C13, the code at the failing input: `upgradeHeader` is built with
`resp.Header.Get("Set-Cookie")`, the first value only.  For every handshake
response its `Set-Cookie` entry is that first value alone (absent when it is
empty); for the response that negotiates `chat` and sets the cookies `a=1` and
`b=2` the header set passed to the inbound upgrade is
`Sec-Websocket-Protocol: chat`, `Set-Cookie: a=1`, and `b=2` is lost. -/
theorem C13_only_first_set_cookie :
    (∀ resp : Response,
      (upgradeHeader resp).values "Set-Cookie"
        = if resp.Header.Get "Set-Cookie" ≠ "" then [resp.Header.Get "Set-Cookie"] else []) ∧
    Header.values cookieResponse.Header "Set-Cookie" = ["a=1", "b=2"] ∧
    upgradeHeader cookieResponse
      = [("Sec-Websocket-Protocol", ["chat"]), ("Set-Cookie", ["a=1"])] ∧
    "b=2" ∉ (upgradeHeader cookieResponse).values "Set-Cookie" ∧
    (proxyWebSocket (sampleEnv (DialResult.connected cookieResponse) none
        (some (Peer.backend, normalClose))) sampleServer freshWriter sampleRequest).events[3]?
      = some (Event.Upgrade [("Sec-Websocket-Protocol", ["chat"]), ("Set-Cookie", ["a=1"])]
          true) := by
  refine ⟨fun resp => ?_, by decide, by decide, by decide, by decide⟩
  have hne : ¬ "Set-Cookie" = "Sec-Websocket-Protocol" := by decide
  unfold upgradeHeader Header.values
  by_cases hc : resp.Header.Get "Set-Cookie" = ""
  · by_cases hp : resp.Header.Get "Sec-Websocket-Protocol" = ""
    · simp [hc, hp, Header.lookup]
    · have hk : ¬ CanonicalHeaderKey "Sec-Websocket-Protocol" = "Set-Cookie" := by decide
      simp [hc, hp, lookup_Set, hk, Header.lookup]
  · simp [hc, lookup_Set, canonical_set_cookie]

/-! ## Order of the dial and the first increment -/

/-- Every invocation starts with the dial, from call to return, and makes its
first `Add(1)` right after. -/
theorem proxyWebSocket_start (env : Env) (server : URL) (rw : ResponseWriter) (req : Request) :
    ∃ ok rest, (proxyWebSocket env server rw req).events
      = Event.DialCall ("ws://" ++ server.Host ++ req.Path) (requestHeader env req)
        :: Event.DialReturn ok :: Event.wgAdd 1 :: rest := by
  rcases hd : env.Dial ("ws://" ++ server.Host ++ req.Path) (requestHeader env req)
    with resp | ⟨resp, err⟩
  · cases hu : (env.Upgrade rw req (upgradeHeader resp)).2 with
    | some e =>
      rw [proxyWebSocket_upgrade_failed env server rw req resp e hd hu]
      exact ⟨true, _, rfl⟩
    | none =>
      cases hr : env.relayEnd with
      | none =>
        rw [proxyWebSocket_blocked env server rw req resp hd hu hr]
        exact ⟨true, _, rfl⟩
      | some pe =>
        obtain ⟨dst, err⟩ := pe
        rw [proxyWebSocket_relayed env server rw req resp dst err hd hu hr]
        exact ⟨true, _, rfl⟩
  · cases resp with
    | none =>
      rw [proxyWebSocket_failed_none env server rw req err hd]
      exact ⟨false, _, rfl⟩
    | some r =>
      rw [proxyWebSocket_failed_resp env server rw req r err hd]
      exact ⟨false, _, rfl⟩

/-- C14, as amended: in every run of `proxyWebSocket` the first drain-counter
increment (`connWaitGroup.Add(1)`) is the very next event after the backend
dial has returned, whether the dial failed or not; no increment precedes the
return of the dial, so while the dial is in flight the counter still has the
value it had before the invocation. -/
theorem C14_increment_follows_dial (env : Env) (server : URL) (rw : ResponseWriter)
    (req : Request) :
    (∃ ok, (proxyWebSocket env server rw req).events.take 3
      = [Event.DialCall ("ws://" ++ server.Host ++ req.Path) (requestHeader env req),
         Event.DialReturn ok, Event.wgAdd 1]) ∧
    (∀ c, wgCounter c ((proxyWebSocket env server rw req).events.take 1) = c) ∧
    (∀ c, wgCounter c ((proxyWebSocket env server rw req).events.take 2) = c) ∧
    (∀ c, wgCounter c ((proxyWebSocket env server rw req).events.take 3) = c + 1) := by
  obtain ⟨ok, rest, h⟩ := proxyWebSocket_start env server rw req
  rw [h]
  refine ⟨⟨ok, by simp⟩, fun c => ?_, fun c => ?_, fun c => ?_⟩ <;>
    simp [wgCounter, wgStep]

/-- C14 as stated fails: in the run whose dial fails without a response the
dial has returned (second event) before the first `Add(1)` (third event), and
the counter is still 0 when the dial completes. -/
theorem C14_counterexample :
    (proxyWebSocket (sampleEnv (DialResult.failed none badHandshake) none none)
        sampleServer freshWriter sampleRequest).events
      = [Event.DialCall "ws://localhost:9001/websocket"
            (requestHeader (sampleEnv (DialResult.failed none badHandshake) none none)
              sampleRequest),
         Event.DialReturn false, Event.wgAdd 1, Event.wgDone] ∧
    List.indexOf (Event.DialReturn false)
        (proxyWebSocket (sampleEnv (DialResult.failed none badHandshake) none none)
          sampleServer freshWriter sampleRequest).events
      < List.indexOf (Event.wgAdd 1)
        (proxyWebSocket (sampleEnv (DialResult.failed none badHandshake) none none)
          sampleServer freshWriter sampleRequest).events ∧
    wgCounter 0 ((proxyWebSocket (sampleEnv (DialResult.failed none badHandshake) none none)
        sampleServer freshWriter sampleRequest).events.take 2) = 0 := by
  refine ⟨by decide, by decide, by decide⟩

end Proxy
